import Mathlib

/-!
Verification of the Phosphor SID player against its specification.

This file shallowly embeds the Rust code of the repository in Lean:

* `src/player/mod.rs` — `send_sid_writes` (delta conversion, mono mirroring)
  and the control flow of `run_rsid_init_emu` / `setup_rsid_engine`;
* `src/player/sid_file.rs` — the PSID/RSID header parser;
* `src/player/memory.rs` — `CiaTimer`, `Cia` (tick, `clear_stale_ints`) and
  the `Vic` register file;
* `src/player/rsid_bus.rs` — `RsidBus::clear_stale_ints` over the `c64_emu`
  CIA components;
* `src/c64_emu/mmu.rs` — the pseudo-random last-bus-byte LCG;
* `src/sid_emulated.rs` — the fixed-point `ExternalFilter`.

Machine integers are modelled as `Nat` (with explicit `% 2^w` where the Rust
code wraps) or `Int` (for the `i32` filter arithmetic, where the proofs also
establish that no `i32` overflow occurs on the stated ranges, so the model
and the two's-complement code agree).  Byte strings are modelled as
`List Nat` of byte values.  Fallible code returns `Except`; code whose Rust
counterpart could panic on an out-of-bounds index is additionally wrapped in
`Option`, `none` marking the panic, so totality is a provable statement.
-/

namespace Phosphor

/-! ### `send_sid_writes` (src/player/mod.rs lines 87-120)

A captured SID write is a triple `(cycle, reg, value)` of the absolute frame
cycle, the register offset and the byte written (`SidWrite` in memory.rs).
`ring_cycled` receives triples `(delta, reg, value)`.  The functions below
return the exact list handed to `bridge.ring_cycled`; when `writes` is empty
the bridge is not called, which we model as the empty transmission. -/

/-- Constant `SID_REG_SIZE` from src/player/memory.rs. -/
def SID_REG_SIZE : Nat := 0x20

/-- Constant `SID_VOL_REG` from src/player/memory.rs. -/
def SID_VOL_REG : Nat := 0x18

/-- Loop of the `mirror_mono` branch of `send_sid_writes`: each write becomes
a delta-stamped triple, and writes to registers `<= SID_VOL_REG` are
duplicated into the second SID slot with delta 0.  `prev` is the running
`prev_cycle` variable; `u32::saturating_sub` is truncated `Nat` subtraction
and `.min(0xFFFF)` is `min _ 0xFFFF`. -/
def monoCycled : Nat → List (Nat × Nat × Nat) → List (Nat × Nat × Nat)
  | _, [] => []
  | prev, (cycle, reg, val) :: rest =>
      let delta := min (cycle - prev) 0xFFFF
      if reg ≤ SID_VOL_REG then
        (delta, reg, val) :: (0, reg + SID_REG_SIZE, val) :: monoCycled cycle rest
      else
        (delta, reg, val) :: monoCycled cycle rest

/-- Loop of the multi-SID branch of `send_sid_writes`: every write becomes a
single delta-stamped triple. -/
def multiCycled : Nat → List (Nat × Nat × Nat) → List (Nat × Nat × Nat)
  | _, [] => []
  | prev, (cycle, reg, val) :: rest =>
      (min (cycle - prev) 0xFFFF, reg, val) :: multiCycled cycle rest

/-- `send_sid_writes` from src/player/mod.rs, returning the list passed to
`ring_cycled` (empty when the function returns early). -/
def send_sid_writes (writes : List (Nat × Nat × Nat)) (mirror_mono : Bool) :
    List (Nat × Nat × Nat) :=
  if writes.isEmpty then []
  else if mirror_mono then monoCycled 0 writes
  else multiCycled 0 writes

/-- Specification-side delta form (from the claim's words): pair every write
with the frame cycle of its predecessor (0 for the first write) and stamp it
with the clamped non-negative cycle difference. -/
def deltaFormSpec (writes : List (Nat × Nat × Nat)) : List (Nat × Nat × Nat) :=
  (writes.zip (0 :: writes.map (fun w => w.1))).map
    (fun wp => (min (wp.1.1 - wp.2) 0xFFFF, wp.1.2.1, wp.1.2.2))

/-- Specification-side mono-mirror form (from the claim's words): every write
with register offset `<= 0x18` produces the delta-stamped triple immediately
followed by its `(0, reg + 0x20, value)` mirror; other writes appear once. -/
def mirrorFormSpec (writes : List (Nat × Nat × Nat)) : List (Nat × Nat × Nat) :=
  (writes.zip (0 :: writes.map (fun w => w.1))).flatMap
    (fun wp =>
      let delta := min (wp.1.1 - wp.2) 0xFFFF
      if wp.1.2.1 ≤ 0x18 then
        [(delta, wp.1.2.1, wp.1.2.2), (0, wp.1.2.1 + 0x20, wp.1.2.2)]
      else
        [(delta, wp.1.2.1, wp.1.2.2)])

lemma multiCycled_eq_spec (prev : Nat) (ws : List (Nat × Nat × Nat)) :
    multiCycled prev ws =
      (ws.zip (prev :: ws.map (fun w => w.1))).map
        (fun wp => (min (wp.1.1 - wp.2) 0xFFFF, wp.1.2.1, wp.1.2.2)) := by
  induction ws generalizing prev with
  | nil => rfl
  | cons w rest ih =>
      obtain ⟨c, r, v⟩ := w
      simp [multiCycled, ih c, List.zip]

lemma monoCycled_eq_spec (prev : Nat) (ws : List (Nat × Nat × Nat)) :
    monoCycled prev ws =
      (ws.zip (prev :: ws.map (fun w => w.1))).flatMap
        (fun wp =>
          let delta := min (wp.1.1 - wp.2) 0xFFFF
          if wp.1.2.1 ≤ 0x18 then
            [(delta, wp.1.2.1, wp.1.2.2), (0, wp.1.2.1 + 0x20, wp.1.2.2)]
          else
            [(delta, wp.1.2.1, wp.1.2.2)]) := by
  induction ws generalizing prev with
  | nil => rfl
  | cons w rest ih =>
      obtain ⟨c, r, v⟩ := w
      by_cases hr : r ≤ 0x18
      · simp [monoCycled, SID_VOL_REG, SID_REG_SIZE, hr, ih c, List.zip]
      · simp [monoCycled, SID_VOL_REG, SID_REG_SIZE, hr, ih c, List.zip]

/-- C1: in the default (multi-SID) mode, `send_sid_writes` transmits exactly
the captured writes in capture order, each stamped with the non-negative
difference between its frame cycle and the previous write's frame cycle
(zero-based for the first write), clamped to 0xFFFF. -/
theorem send_sid_writes_delta_form (writes : List (Nat × Nat × Nat)) :
    send_sid_writes writes false = deltaFormSpec writes := by
  cases writes with
  | nil => rfl
  | cons w rest =>
      simp only [send_sid_writes, deltaFormSpec, List.isEmpty_cons, if_neg,
        Bool.false_eq_true, not_false_iff, if_false, cond_false]
      exact multiCycled_eq_spec 0 (w :: rest)

/-- C2: in mono-mirror mode every captured write `(c, r, v)` with
`r ≤ 0x18` is transmitted as the pair `(delta, r, v), (0, r + 0x20, v)`,
and writes with `r > 0x18` are transmitted once without a duplicate. -/
theorem send_sid_writes_mono_mirror (writes : List (Nat × Nat × Nat)) :
    send_sid_writes writes true = mirrorFormSpec writes := by
  cases writes with
  | nil => rfl
  | cons w rest =>
      simp only [send_sid_writes, mirrorFormSpec, List.isEmpty_cons, if_neg,
        not_false_iff, if_true]
      exact monoCycled_eq_spec 0 (w :: rest)

/-! ### PSID / RSID parser (src/player/sid_file.rs)

Input files are byte lists.  `Option` wraps each parser: `none` models a
Rust index-out-of-bounds panic, `some (Except.error e)` a returned `Err`,
`some (Except.ok _)` a returned `Ok`.  The formatted Rust error strings are
replaced by the constructors of `SidErr`.  `String::from_utf8_lossy` never
maps two different 4-byte inputs to the same ASCII text, so comparing the
magic against the literal byte lists of `"PSID"` and `"RSID"` is equivalent
to the string comparisons in the Rust code. -/

/-- Byte values of the `"PSID"` magic. -/
def PSID_MAGIC : List Nat := [0x50, 0x53, 0x49, 0x44]

/-- Byte values of the `"RSID"` magic. -/
def RSID_MAGIC : List Nat := [0x52, 0x53, 0x49, 0x44]

/-- Parsed SID header (`SidHeader` in sid_file.rs), strings kept as byte
lists. -/
structure SidHeader where
  magic : List Nat
  version : Nat
  data_offset : Nat
  load_address : Nat
  init_address : Nat
  play_address : Nat
  songs : Nat
  start_song : Nat
  speed : Nat
  name : List Nat
  author : List Nat
  released : List Nat
  is_pal : Bool
  is_rsid : Bool
  extra_sid_addrs : Nat × Nat
  deriving DecidableEq, Repr, Inhabited

/-- Loaded SID file (`SidFile` in sid_file.rs). -/
structure SidFile where
  header : SidHeader
  load_address : Nat
  payload : List Nat
  raw : List Nat
  deriving DecidableEq, Repr

/-- Abstract error values for the `Err(String)` results of the parser. -/
inductive SidErr where
  | tooSmall
  | notSid (magic : List Nat)
  | dataOffsetPastEnd
  | tooSmallForLoad
  deriving DecidableEq, Repr

/-- Slice `d[o..o+n]`; `none` models the Rust panic when the range is out of
bounds. -/
def slice (d : List Nat) (o n : Nat) : Option (List Nat) :=
  if o + n ≤ d.length then some ((d.drop o).take n) else none

/-- `read_be_u16` from sid_file.rs; `none` models an out-of-bounds index. -/
def read_be_u16 (d : List Nat) (o : Nat) : Option Nat :=
  match d[o]?, d[o + 1]? with
  | some a, some b => some ((a <<< 8) ||| b)
  | _, _ => none

/-- `read_be_u32` from sid_file.rs; `none` models an out-of-bounds index. -/
def read_be_u32 (d : List Nat) (o : Nat) : Option Nat :=
  match d[o]?, d[o + 1]?, d[o + 2]?, d[o + 3]? with
  | some a, some b, some c, some e =>
      some ((a <<< 24) ||| (b <<< 16) ||| (c <<< 8) ||| e)
  | _, _, _, _ => none

/-- `read_string` from sid_file.rs: slice `d[o..o+n]`, keep the bytes before
the first NUL (`position` of 0, defaulting to the whole slice). -/
def read_string (d : List Nat) (o n : Nat) : Option (List Nat) :=
  match slice d o n with
  | none => none
  | some s => some (s.takeWhile (fun b => b ≠ 0))

/-- `decode_sid_addr_byte` from sid_file.rs. -/
def decode_sid_addr_byte (b : Nat) : Nat :=
  if 0x42 ≤ b ∧ (b ≤ 0x7F ∨ 0xE0 ≤ b) ∧ b &&& 1 = 0 then
    0xD000 ||| (b <<< 4)
  else
    0

/-- The `version >= 2` block of `parse_header`: decode the PAL flag and the
two extra SID address bytes, with the nested version guards of the source. -/
def parse_flags (data : List Nat) (version : Nat) : Option (Bool × Nat × Nat) :=
  if 2 ≤ version ∧ 0x7C ≤ data.length then
    match read_be_u16 data 0x76 with
    | none => none
    | some flags =>
      match (if 3 ≤ version ∧ 0x7A < data.length then
               (data[0x7A]?).map decode_sid_addr_byte
             else some 0) with
      | none => none
      | some e0 =>
        match (if 4 ≤ version ∧ 0x7B < data.length then
                 (data[0x7B]?).map decode_sid_addr_byte
               else some 0) with
        | none => none
        | some e1 => some (decide (((flags >>> 2) &&& 0x03) ≠ 2), e0, e1)
  else
    some (true, 0, 0)

/-- `parse_header` from sid_file.rs. -/
def parse_header (data : List Nat) : Option (Except SidErr SidHeader) :=
  if data.length < 0x76 then some (Except.error SidErr.tooSmall) else
  match slice data 0 4 with
  | none => none
  | some magic =>
    if magic ≠ PSID_MAGIC ∧ magic ≠ RSID_MAGIC then
      some (Except.error (SidErr.notSid magic))
    else
      match read_be_u16 data 0x04 with
      | none => none
      | some version =>
      match parse_flags data version with
      | none => none
      | some (is_pal, e0, e1) =>
      match read_be_u16 data 0x06 with
      | none => none
      | some data_offset =>
      match read_be_u16 data 0x08 with
      | none => none
      | some load_address =>
      match read_be_u16 data 0x0A with
      | none => none
      | some init_address =>
      match read_be_u16 data 0x0C with
      | none => none
      | some play_address =>
      match read_be_u16 data 0x0E with
      | none => none
      | some songs =>
      match read_be_u16 data 0x10 with
      | none => none
      | some start_song =>
      match read_be_u32 data 0x12 with
      | none => none
      | some speed =>
      match read_string data 0x16 32 with
      | none => none
      | some name =>
      match read_string data 0x36 32 with
      | none => none
      | some author =>
      match read_string data 0x56 32 with
      | none => none
      | some released =>
        some (Except.ok
          { magic := magic
            version := version
            data_offset := data_offset
            load_address := load_address
            init_address := init_address
            play_address := play_address
            songs := songs
            start_song := start_song
            speed := speed
            name := name
            author := author
            released := released
            is_pal := is_pal
            is_rsid := decide (magic = RSID_MAGIC)
            extra_sid_addrs := (e0, e1) })

/-- `load_sid` from sid_file.rs.  The two trailing bounds tests model the
panic condition of the final `data[payload_start..]` slice. -/
def load_sid (data : List Nat) : Option (Except SidErr SidFile) :=
  match parse_header data with
  | none => none
  | some (Except.error e) => some (Except.error e)
  | some (Except.ok header) =>
    if data.length ≤ header.data_offset then
      some (Except.error SidErr.dataOffsetPastEnd)
    else if header.load_address = 0 then
      if data.length < header.data_offset + 2 then
        some (Except.error SidErr.tooSmallForLoad)
      else
        match data[header.data_offset]?, data[header.data_offset + 1]? with
        | some lo, some hi =>
            if header.data_offset + 2 ≤ data.length then
              some (Except.ok
                { header := header
                  load_address := (hi <<< 8) ||| lo
                  payload := data.drop (header.data_offset + 2)
                  raw := data })
            else none
        | _, _ => none
    else
      if header.data_offset ≤ data.length then
        some (Except.ok
          { header := header
            load_address := header.load_address
            payload := data.drop header.data_offset
            raw := data })
      else none

/-- The effective RSID determination of `handle_cmd`
(src/player/mod.rs lines 427-428). -/
def effective_is_rsid (h : SidHeader) : Bool :=
  h.is_rsid || (decide (h.play_address = 0) && decide (h.magic = PSID_MAGIC))

lemma slice_total (d : List Nat) (o n : Nat) (h : o + n ≤ d.length) :
    slice d o n = some ((d.drop o).take n) := by
  simp [slice, h]

lemma read_be_u16_total (d : List Nat) (o : Nat) (h : o + 2 ≤ d.length) :
    ∃ v, read_be_u16 d o = some v := by
  have h1 : o < d.length := by omega
  have h2 : o + 1 < d.length := by omega
  unfold read_be_u16
  rw [List.getElem?_eq_getElem h1, List.getElem?_eq_getElem h2]
  exact ⟨_, rfl⟩

lemma read_be_u32_total (d : List Nat) (o : Nat) (h : o + 4 ≤ d.length) :
    ∃ v, read_be_u32 d o = some v := by
  have h1 : o < d.length := by omega
  have h2 : o + 1 < d.length := by omega
  have h3 : o + 2 < d.length := by omega
  have h4 : o + 3 < d.length := by omega
  unfold read_be_u32
  rw [List.getElem?_eq_getElem h1, List.getElem?_eq_getElem h2,
    List.getElem?_eq_getElem h3, List.getElem?_eq_getElem h4]
  exact ⟨_, rfl⟩

lemma read_string_total (d : List Nat) (o n : Nat) (h : o + n ≤ d.length) :
    ∃ s, read_string d o n = some s := by
  unfold read_string
  rw [slice_total d o n h]
  exact ⟨_, rfl⟩

lemma parse_flags_total (data : List Nat) (version : Nat) :
    ∃ r, parse_flags data version = some r := by
  unfold parse_flags
  by_cases hg : 2 ≤ version ∧ 0x7C ≤ data.length
  · obtain ⟨flags, hf⟩ := read_be_u16_total data 0x76 (by omega)
    rw [if_pos hg, hf]
    have he0 : ∃ e0,
        (if 3 ≤ version ∧ 0x7A < data.length then
          (data[0x7A]?).map decode_sid_addr_byte
        else some 0) = some e0 := by
      by_cases h3 : 3 ≤ version ∧ 0x7A < data.length
      · rw [if_pos h3, List.getElem?_eq_getElem h3.2]
        exact ⟨_, rfl⟩
      · exact ⟨0, if_neg h3⟩
    obtain ⟨e0, he0⟩ := he0
    rw [he0]
    have he1 : ∃ e1,
        (if 4 ≤ version ∧ 0x7B < data.length then
          (data[0x7B]?).map decode_sid_addr_byte
        else some 0) = some e1 := by
      by_cases h4 : 4 ≤ version ∧ 0x7B < data.length
      · rw [if_pos h4, List.getElem?_eq_getElem h4.2]
        exact ⟨_, rfl⟩
      · exact ⟨0, if_neg h4⟩
    obtain ⟨e1, he1⟩ := he1
    rw [he1]
    exact ⟨_, rfl⟩
  · rw [if_neg hg]
    exact ⟨_, rfl⟩

/-- Every input parses to `some` outcome: no indexing in `parse_header` can
go out of bounds. -/
lemma parse_header_isSome (data : List Nat) : (parse_header data).isSome := by
  unfold parse_header
  split
  · rfl
  next hlen =>
  have hlen6 : 0x76 ≤ data.length := by omega
  split
  next hsl => rw [slice_total data 0 4 (by omega)] at hsl; exact Option.noConfusion hsl
  next magic hsl =>
  split
  · rfl
  next hm =>
  split
  next hv =>
    obtain ⟨v, hv2⟩ := read_be_u16_total data 0x04 (by omega)
    rw [hv2] at hv; exact Option.noConfusion hv
  next version hv =>
  split
  next hpf =>
    obtain ⟨r, hpf2⟩ := parse_flags_total data version
    rw [hpf2] at hpf; exact Option.noConfusion hpf
  next is_pal e0 e1 hpf =>
  split
  next h06 =>
    obtain ⟨v, h2⟩ := read_be_u16_total data 0x06 (by omega)
    rw [h2] at h06; exact Option.noConfusion h06
  next v06 h06 =>
  split
  next h08 =>
    obtain ⟨v, h2⟩ := read_be_u16_total data 0x08 (by omega)
    rw [h2] at h08; exact Option.noConfusion h08
  next v08 h08 =>
  split
  next h0A =>
    obtain ⟨v, h2⟩ := read_be_u16_total data 0x0A (by omega)
    rw [h2] at h0A; exact Option.noConfusion h0A
  next v0A h0A =>
  split
  next h0C =>
    obtain ⟨v, h2⟩ := read_be_u16_total data 0x0C (by omega)
    rw [h2] at h0C; exact Option.noConfusion h0C
  next v0C h0C =>
  split
  next h0E =>
    obtain ⟨v, h2⟩ := read_be_u16_total data 0x0E (by omega)
    rw [h2] at h0E; exact Option.noConfusion h0E
  next v0E h0E =>
  split
  next h10 =>
    obtain ⟨v, h2⟩ := read_be_u16_total data 0x10 (by omega)
    rw [h2] at h10; exact Option.noConfusion h10
  next v10 h10 =>
  split
  next h12 =>
    obtain ⟨v, h2⟩ := read_be_u32_total data 0x12 (by omega)
    rw [h2] at h12; exact Option.noConfusion h12
  next v12 h12 =>
  split
  next h16 =>
    obtain ⟨s, h2⟩ := read_string_total data 0x16 32 (by omega)
    rw [h2] at h16; exact Option.noConfusion h16
  next s16 h16 =>
  split
  next h36 =>
    obtain ⟨s, h2⟩ := read_string_total data 0x36 32 (by omega)
    rw [h2] at h36; exact Option.noConfusion h36
  next s36 h36 =>
  split
  next h56 =>
    obtain ⟨s, h2⟩ := read_string_total data 0x56 32 (by omega)
    rw [h2] at h56; exact Option.noConfusion h56
  next s56 h56 => rfl

/-- Every input loads to `some` outcome: no indexing in `load_sid` can go
out of bounds. -/
lemma load_sid_isSome (data : List Nat) : (load_sid data).isSome := by
  have hp := parse_header_isSome data
  unfold load_sid
  split
  next hph => rw [hph] at hp; exact Bool.noConfusion hp
  next e hph => rfl
  next header hph =>
  split
  · rfl
  next hds =>
  split
  next hla =>
    split
    · rfl
    next hsz =>
    have hd1 : header.data_offset < data.length := by omega
    have hd2 : header.data_offset + 1 < data.length := by omega
    rw [List.getElem?_eq_getElem hd1, List.getElem?_eq_getElem hd2]
    split
    next lo hi _ _ =>
      rw [if_pos (by omega : header.data_offset + 2 ≤ data.length)]
      rfl
    next hcontra => exact (hcontra _ _ rfl rfl).elim
  next hla =>
    rw [if_pos (by omega : header.data_offset ≤ data.length)]
    rfl

/-- Success outputs of `parse_header` record the magic bytes, restrict them
to the two valid values, and set `is_rsid` exactly when they are `"RSID"`. -/
lemma parse_header_ok_shape (data : List Nat) (h : SidHeader)
    (hok : parse_header data = some (Except.ok h)) :
    h.magic = data.take 4 ∧
      (h.magic = PSID_MAGIC ∨ h.magic = RSID_MAGIC) ∧
      h.is_rsid = decide (h.magic = RSID_MAGIC) := by
  unfold parse_header at hok
  split at hok
  · exact Except.noConfusion (Option.some.inj hok)
  next hlen =>
  have hlen6 : 0x76 ≤ data.length := by omega
  split at hok
  next hsl => exact Option.noConfusion hok
  next magic hsl =>
  rw [slice_total data 0 4 (by omega)] at hsl
  have hmagic : magic = data.take 4 := by
    have := Option.some.inj hsl
    simpa using this.symm
  split at hok
  next => exact Except.noConfusion (Option.some.inj hok)
  next hm =>
  split at hok
  next => exact Option.noConfusion hok
  next version hv =>
  split at hok
  next => exact Option.noConfusion hok
  next is_pal e0 e1 hpf =>
  split at hok
  next => exact Option.noConfusion hok
  next v06 h06 =>
  split at hok
  next => exact Option.noConfusion hok
  next v08 h08 =>
  split at hok
  next => exact Option.noConfusion hok
  next v0A h0A =>
  split at hok
  next => exact Option.noConfusion hok
  next v0C h0C =>
  split at hok
  next => exact Option.noConfusion hok
  next v0E h0E =>
  split at hok
  next => exact Option.noConfusion hok
  next v10 h10 =>
  split at hok
  next => exact Option.noConfusion hok
  next v12 h12 =>
  split at hok
  next => exact Option.noConfusion hok
  next s16 h16 =>
  split at hok
  next => exact Option.noConfusion hok
  next s36 h36 =>
  split at hok
  next => exact Option.noConfusion hok
  next s56 h56 =>
  have hh := Except.ok.inj (Option.some.inj hok)
  have h1 : h.magic = magic := by rw [← hh]
  have h2 : h.is_rsid = decide (magic = RSID_MAGIC) := by rw [← hh]
  refine ⟨h1.trans hmagic, ?_, by rw [h2, h1]⟩
  rw [h1, hmagic] at *
  rcases not_and_or.mp hm with hp | hr
  · exact Or.inl (not_not.mp hp)
  · exact Or.inr (not_not.mp hr)

lemma parse_header_tooSmall (data : List Nat) (h : data.length < 0x76) :
    parse_header data = some (Except.error SidErr.tooSmall) := by
  unfold parse_header
  rw [if_pos h]

lemma parse_header_notSid (data : List Nat) (hlen : 0x76 ≤ data.length)
    (hP : data.take 4 ≠ PSID_MAGIC) (hR : data.take 4 ≠ RSID_MAGIC) :
    parse_header data = some (Except.error (SidErr.notSid (data.take 4))) := by
  unfold parse_header
  rw [if_neg (by omega), slice_total data 0 4 (by omega)]
  simp only [List.drop_zero]
  rw [if_pos ⟨hP, hR⟩]

/-- C10: `load_sid` and `parse_header` are total — on every byte list they
return `some` verdict (never an out-of-bounds panic), and the listed
degenerate inputs produce the corresponding errors, so no `SidFile` is
built from them. -/
theorem sid_parser_total (data : List Nat) (h : SidHeader) :
    (parse_header data).isSome = true ∧
    (load_sid data).isSome = true ∧
    (data.length < 118 → load_sid data = some (Except.error SidErr.tooSmall)) ∧
    (118 ≤ data.length → data.take 4 ≠ PSID_MAGIC → data.take 4 ≠ RSID_MAGIC →
      load_sid data = some (Except.error (SidErr.notSid (data.take 4)))) ∧
    (parse_header data = some (Except.ok h) → data.length ≤ h.data_offset →
      load_sid data = some (Except.error SidErr.dataOffsetPastEnd)) ∧
    (parse_header data = some (Except.ok h) → h.load_address = 0 →
      h.data_offset < data.length → data.length < h.data_offset + 2 →
      load_sid data = some (Except.error SidErr.tooSmallForLoad)) := by
  refine ⟨parse_header_isSome data, load_sid_isSome data, ?_, ?_, ?_, ?_⟩
  · intro hlen
    unfold load_sid
    rw [parse_header_tooSmall data hlen]
  · intro hlen hP hR
    unfold load_sid
    rw [parse_header_notSid data hlen hP hR]
  · intro hok hds
    unfold load_sid
    rw [hok]
    simp only []
    rw [if_pos hds]
  · intro hok hla hd1 hd2
    unfold load_sid
    rw [hok]
    simp only []
    rw [if_neg (by omega), if_pos hla, if_pos hd2]

/-- C10 witness: concrete degenerate inputs hit each error branch, and a
well-formed minimal input parses. -/
theorem sid_parser_total_witness :
    load_sid [] = some (Except.error SidErr.tooSmall) ∧
    load_sid (List.replicate 118 0) =
      some (Except.error (SidErr.notSid (List.replicate 4 0))) ∧
    (parse_header (PSID_MAGIC ++ List.replicate 114 0)).isSome = true := by
  refine ⟨(sid_parser_total [] default).2.2.1 (by decide), ?_, ?_⟩
  · have := (sid_parser_total (List.replicate 118 0) default).2.2.2.1
      (by decide) (by decide) (by decide)
    rw [this]
    rfl
  · exact (sid_parser_total (PSID_MAGIC ++ List.replicate 114 0) default).1

/-- The claim of C4, as stated: the parser's `is_rsid` field is true exactly
when the magic is `"RSID"`, or the magic is `"PSID"` and the play address
is zero. -/
def claimC4 (data : List Nat) : Prop :=
  ∀ h, parse_header data = some (Except.ok h) →
    (h.is_rsid = true ↔
      (h.magic = RSID_MAGIC ∨ (h.magic = PSID_MAGIC ∧ h.play_address = 0)))

/-- The header produced by parsing a minimal all-zero PSID file. -/
def c4Header : SidHeader :=
  { magic := PSID_MAGIC
    version := 0
    data_offset := 0
    load_address := 0
    init_address := 0
    play_address := 0
    songs := 0
    start_song := 0
    speed := 0
    name := []
    author := []
    released := []
    is_pal := true
    is_rsid := false
    extra_sid_addrs := (0, 0) }

/-- C4 counterexample: on a PSID file with play address 0 the parser's
`is_rsid` field is `false`, although the claim requires it to be true. -/
theorem parse_header_is_rsid_counterexample :
    ¬ claimC4 (PSID_MAGIC ++ List.replicate 114 0) := by
  intro hcl
  have hpar : parse_header (PSID_MAGIC ++ List.replicate 114 0) =
      some (Except.ok c4Header) := by rfl
  have := (hcl c4Header hpar).mpr (Or.inr ⟨rfl, rfl⟩)
  simp [c4Header] at this

/-- C4 amended: the parser's `is_rsid` field is true exactly when the magic
is `"RSID"`; the claimed disjunction with `"PSID"` and play address 0 is
the effective RSID flag computed later by `handle_cmd`. -/
theorem parse_header_is_rsid_amended (data : List Nat) (h : SidHeader)
    (hok : parse_header data = some (Except.ok h)) :
    (h.is_rsid = true ↔ h.magic = RSID_MAGIC) ∧
    (effective_is_rsid h = true ↔
      (h.magic = RSID_MAGIC ∨ (h.magic = PSID_MAGIC ∧ h.play_address = 0))) := by
  obtain ⟨-, hmem, hrs⟩ := parse_header_ok_shape data h hok
  constructor
  · rw [hrs]; simp
  · rw [effective_is_rsid, hrs]
    rcases hmem with hp | hr
    · have hne : ¬ h.magic = RSID_MAGIC := by rw [hp]; decide
      simp [hp, hne, and_comm]
    · have hne : ¬ h.magic = PSID_MAGIC := by rw [hr]; decide
      simp [hr, hne]

/-- C4 amended witness: the minimal all-zero PSID file instantiates both
equivalences. -/
theorem parse_header_is_rsid_amended_witness :
    (c4Header.is_rsid = true ↔ c4Header.magic = RSID_MAGIC) ∧
    (effective_is_rsid c4Header = true ↔
      (c4Header.magic = RSID_MAGIC ∨
        (c4Header.magic = PSID_MAGIC ∧ c4Header.play_address = 0))) :=
  parse_header_is_rsid_amended (PSID_MAGIC ++ List.replicate 114 0) c4Header
    (by rfl)

/-! ### CIA timers (src/player/memory.rs lines 49-411)

`u16` / `u8` / `u32` fields become `Nat`; the theorems carry the bound
`latch < 65536` under which the `Nat` model agrees with the `u16`
arithmetic of the source (inside `tick` the subtractions never underflow
and the `as u16` cast is lossless). -/

/-- `CiaTimer` from memory.rs. -/
structure CiaTimer where
  counter : Nat
  latch : Nat
  running : Bool
  oneshot : Bool
  underflow : Bool
  deriving DecidableEq, Repr

/-- `CiaTimer::new`. -/
def CiaTimer.new : CiaTimer :=
  { counter := 0xFFFF, latch := 0xFFFF, running := false,
    oneshot := false, underflow := false }

/-- The `while remaining > 0 && self.running` loop of `CiaTimer::tick`,
carrying the `fires` accumulator; in the underflow branch the source sets
`counter = latch` in both the oneshot and the continuous case and stops a
oneshot timer. -/
def CiaTimer.tickLoop (t : CiaTimer) (remaining fires : Nat) : CiaTimer × Nat :=
  if 0 < remaining ∧ t.running then
    if t.counter < remaining then
      CiaTimer.tickLoop
        { t with
            underflow := true
            running := if t.oneshot then false else t.running
            counter := t.latch }
        (remaining - (t.counter + 1)) (fires + 1)
    else
      ({ t with counter := t.counter - remaining }, fires)
  else
    (t, fires)
termination_by remaining
decreasing_by omega

/-- `CiaTimer::tick`: advance by `cycles` phi2 clocks, returning the number
of underflows. -/
def CiaTimer.tick (t : CiaTimer) (cycles : Nat) : CiaTimer × Nat :=
  if t.running then CiaTimer.tickLoop t cycles 0 else (t, 0)

/-- `CiaTimer::tick_once`: tick by exactly one count (Timer B chained to
Timer A). -/
def CiaTimer.tickOnce (t : CiaTimer) : CiaTimer × Bool :=
  if t.running then
    if t.counter = 0 then
      ({ t with
          underflow := true
          running := if t.oneshot then false else t.running
          counter := t.latch }, true)
    else
      ({ t with counter := t.counter - 1 }, false)
  else
    (t, false)

/-- `bcd_inc` from memory.rs. -/
def bcd_inc (val maxv : Nat) : Nat :=
  let lo := val &&& 0x0F
  let hi := val >>> 4
  let lo2 := lo + 1
  let lo3 := if 9 < lo2 then 0 else lo2
  let hi2 := if 9 < lo2 then hi + 1 else hi
  let result := (hi2 <<< 4) ||| lo3
  if maxv < result then 0 else result

/-- `Cia` from memory.rs (all fields). -/
structure Cia where
  timer_a : CiaTimer
  timer_b : CiaTimer
  int_mask : Nat
  int_data : Nat
  int_line : Bool
  timer_b_counts_a : Bool
  cra : Nat
  crb : Nat
  port_a : Nat
  port_b : Nat
  ddr_a : Nat
  ddr_b : Nat
  ext_a : Nat
  ext_b : Nat
  pb6_toggle : Bool
  pb7_toggle : Bool
  tod_10ths : Nat
  tod_sec : Nat
  tod_min : Nat
  tod_hr : Nat
  tod_tick : Nat
  deriving DecidableEq, Repr

/-- `Cia::new`. -/
def Cia.new : Cia :=
  { timer_a := CiaTimer.new
    timer_b := CiaTimer.new
    int_mask := 0
    int_data := 0
    int_line := false
    timer_b_counts_a := false
    cra := 0
    crb := 0
    port_a := 0xFF
    port_b := 0xFF
    ddr_a := 0x00
    ddr_b := 0x00
    ext_a := 0xFF
    ext_b := 0xFF
    pb6_toggle := true
    pb7_toggle := true
    tod_10ths := 0
    tod_sec := 0
    tod_min := 0
    tod_hr := 0x01
    tod_tick := 0 }

/-- The `for _ in 0..a_fires` loop of `Cia::tick`: step Timer B once per
Timer-A underflow, recording whether any step underflowed. -/
def tickOnceFor (t : CiaTimer) : Nat → CiaTimer × Bool
  | 0 => (t, false)
  | k + 1 =>
      let s := t.tickOnce
      let r := tickOnceFor s.1 k
      (r.1, s.2 || r.2)

/-- The toggle loop of `Cia::tick` (`for _ in 0..a_fires { pb6 = !pb6 }`). -/
def toggleFor (b : Bool) : Nat → Bool
  | 0 => b
  | k + 1 => toggleFor (!b) k

/-- `Cia::tick` from memory.rs: tick both timers and TOD, returning whether
any timer underflowed. -/
def Cia.tick (c : Cia) (cycles : Nat) : Cia × Bool :=
  let ra := c.timer_a.tick cycles
  let a_fires := ra.2
  let rb :=
    if c.timer_b_counts_a then tickOnceFor c.timer_b a_fires
    else
      let r := c.timer_b.tick cycles
      (r.1, decide (0 < r.2))
  let b_fired := rb.2
  let c1 : Cia :=
    if 0 < a_fires then
      { c with
          timer_a := ra.1
          timer_b := rb.1
          int_data := c.int_data ||| 0x01
          pb6_toggle :=
            if c.cra &&& 0x02 ≠ 0 then
              if c.cra &&& 0x04 ≠ 0 then toggleFor c.pb6_toggle a_fires
              else true
            else c.pb6_toggle }
    else { c with timer_a := ra.1, timer_b := rb.1 }
  let c2 : Cia :=
    if b_fired then
      { c1 with
          int_data := c1.int_data ||| 0x02
          pb7_toggle :=
            if c.crb &&& 0x02 ≠ 0 then
              if c.crb &&& 0x04 ≠ 0 then !c.pb7_toggle
              else true
            else c.pb7_toggle }
    else c1
  let c3 : Cia :=
    if c2.int_data &&& c2.int_mask ≠ 0 then { c2 with int_line := true } else c2
  let tt := c3.tod_tick + cycles
  let c4 : Cia :=
    if 100000 ≤ tt then
      let t10 := c3.tod_10ths + 1
      if 10 ≤ t10 then
        let sec := bcd_inc c3.tod_sec 0x59
        if sec = 0 then
          let mn := bcd_inc c3.tod_min 0x59
          if mn = 0 then
            { c3 with
                tod_tick := tt - 100000
                tod_10ths := 0
                tod_sec := sec
                tod_min := mn
                tod_hr := bcd_inc c3.tod_hr 0x12 }
          else
            { c3 with
                tod_tick := tt - 100000
                tod_10ths := 0
                tod_sec := sec
                tod_min := mn }
        else
          { c3 with tod_tick := tt - 100000, tod_10ths := 0, tod_sec := sec }
      else
        { c3 with tod_tick := tt - 100000, tod_10ths := t10 }
    else
      { c3 with tod_tick := tt }
  (c4, decide (0 < a_fires) || b_fired)

/-- `Cia::clear_stale_ints` from memory.rs: clear the pending interrupt flag
and underflow bit of each stopped timer, then drop the interrupt line when
no masked flag remains; `!0x01` and `!0x02` on `u8` are `&&& 0xFE` and
`&&& 0xFD`. -/
def Cia.clear_stale_ints (c : Cia) : Cia :=
  let c1 : Cia :=
    if c.timer_a.running then c
    else
      { c with
          int_data := c.int_data &&& 0xFE
          timer_a := { c.timer_a with underflow := false } }
  let c2 : Cia :=
    if c1.timer_b.running then c1
    else
      { c1 with
          int_data := c1.int_data &&& 0xFD
          timer_b := { c1.timer_b with underflow := false } }
  if c2.int_data &&& c2.int_mask = 0 then { c2 with int_line := false } else c2

lemma div_add_phase (P N n : Nat) (hP : 0 < P) :
    (N + n) / P = N / P + (N % P + n) / P := by
  conv_lhs => rw [← Nat.div_add_mod N P]
  rw [Nat.add_assoc, Nat.mul_add_div hP]

lemma mod_add_phase (P N n : Nat) : (N + n) % P = (N % P + n) % P :=
  (Nat.mod_add_mod N P n).symm

/-- Closed form of the `CiaTimer::tick` loop for a running continuous
timer. -/
lemma tickLoop_closed (L : Nat) (n : Nat) : ∀ (c f : Nat) (u : Bool),
    CiaTimer.tickLoop ⟨c, L, true, false, u⟩ n f =
      (⟨if n ≤ c then c - n else L - (n - c - 1) % (L + 1), L, true, false,
          u || decide (c < n)⟩,
        f + if n ≤ c then 0 else 1 + (n - c - 1) / (L + 1)) := by
  induction n using Nat.strong_induction_on with
  | _ n ih =>
    intro c f u
    rw [CiaTimer.tickLoop]
    by_cases hn : 0 < n
    · rw [if_pos ⟨hn, rfl⟩]
      by_cases hc : c < n
      · rw [if_pos hc]
        have hrec : n - (c + 1) < n := by omega
        show CiaTimer.tickLoop ⟨L, L, true, false, true⟩ (n - (c + 1)) (f + 1) = _
        rw [ih (n - (c + 1)) hrec L (f + 1) true]
        have hle : ¬ n ≤ c := by omega
        rw [if_neg hle, if_neg hle]
        have hn1 : n - c - 1 = n - (c + 1) := by omega
        by_cases hL : n - (c + 1) ≤ L
        · rw [if_pos hL]
          have hmod : (n - c - 1) % (L + 1) = n - (c + 1) := by
            rw [hn1]; exact Nat.mod_eq_of_lt (by omega)
          have hdiv : (n - c - 1) / (L + 1) = 0 := by
            rw [hn1]; exact Nat.div_eq_of_lt (by omega)
          rw [if_pos hL, hmod, hdiv]
          simp [hc]
        · rw [if_neg hL]
          have esub : n - (c + 1) - (L + 1) = n - (c + 1) - L - 1 := by omega
          have hmod : (n - c - 1) % (L + 1) = (n - (c + 1) - L - 1) % (L + 1) := by
            rw [hn1, Nat.mod_eq_sub_mod (by omega), esub]
          have hdiv : (n - c - 1) / (L + 1) = (n - (c + 1) - L - 1) / (L + 1) + 1 := by
            rw [hn1, Nat.div_eq_sub_div (by omega) (by omega), esub]
          rw [if_neg hL, hmod, hdiv]
          simp [hc]
          omega
      · rw [if_neg hc]
        have hle : n ≤ c := by omega
        simp [hle, hc]
    · have hn0 : n = 0 := by omega
      subst hn0
      simp

/-- `CiaTimer::tick` of a running continuous timer at phase `r` below its
latch: the counter keeps counting down modulo `latch + 1` and the underflow
count is the number of multiples of `latch + 1` crossed. -/
lemma tick_phase (L r n : Nat) (u : Bool) (hr : r ≤ L) :
    CiaTimer.tick ⟨L - r, L, true, false, u⟩ n =
      (⟨L - (r + n) % (L + 1), L, true, false, u || decide (L - r < n)⟩,
        (r + n) / (L + 1)) := by
  show CiaTimer.tickLoop ⟨L - r, L, true, false, u⟩ n 0 = _
  rw [tickLoop_closed]
  by_cases hn : n ≤ L - r
  · rw [if_pos hn, if_pos hn]
    have hmod : (r + n) % (L + 1) = r + n := Nat.mod_eq_of_lt (by omega)
    have hdiv : (r + n) / (L + 1) = 0 := Nat.div_eq_of_lt (by omega)
    rw [hmod, hdiv]
    have : L - r - n = L - (r + n) := by omega
    rw [this]
  · rw [if_neg hn, if_neg hn]
    have hkey : r + n = (n - (L - r) - 1) + (L + 1) := by omega
    have hmod : (r + n) % (L + 1) = (n - (L - r) - 1) % (L + 1) := by
      rw [hkey, Nat.add_mod_right]
    have hdiv : (r + n) / (L + 1) = (n - (L - r) - 1) / (L + 1) + 1 := by
      rw [hkey, Nat.add_div_right _ (by omega)]
    rw [hmod, hdiv, Prod.mk.injEq]
    exact ⟨rfl, by omega⟩

/-- Fold `CiaTimer::tick` over a list of cycle counts, accumulating the
underflow count (the scheduler's per-frame usage pattern). -/
def runTicks (t : CiaTimer) (ns : List Nat) : CiaTimer × Nat :=
  ns.foldl (fun acc n => ((acc.1.tick n).1, acc.2 + (acc.1.tick n).2)) (t, 0)

lemma runTicks_foldl_aux (L : Nat) : ∀ (ns : List Nat) (a N : Nat) (u : Bool),
    (ns.foldl (fun (acc : CiaTimer × Nat) n => ((acc.1.tick n).1, acc.2 + (acc.1.tick n).2))
        (⟨L - N % (L + 1), L, true, false, u⟩, a)).2 + N / (L + 1) =
      a + (N + ns.sum) / (L + 1) ∧
    ∃ u2, (ns.foldl (fun (acc : CiaTimer × Nat) n => ((acc.1.tick n).1, acc.2 + (acc.1.tick n).2))
        (⟨L - N % (L + 1), L, true, false, u⟩, a)).1 =
      ⟨L - (N + ns.sum) % (L + 1), L, true, false, u2⟩ := by
  intro ns
  induction ns with
  | nil =>
    intro a N u
    simp only [List.foldl_nil, List.sum_nil, Nat.add_zero]
    exact ⟨trivial, u, rfl⟩
  | cons n rest ih =>
    intro a N u
    simp only [List.foldl_cons, List.sum_cons]
    have hr : N % (L + 1) ≤ L := by
      have := Nat.mod_lt N (y := L + 1) (by omega)
      omega
    rw [tick_phase L (N % (L + 1)) n u hr]
    simp only []
    rw [← mod_add_phase (L + 1) N n]
    have hd : (N + n) / (L + 1) = N / (L + 1) + (N % (L + 1) + n) / (L + 1) :=
      div_add_phase (L + 1) N n (by omega)
    obtain ⟨hcount, u2, hstate⟩ :=
      ih (a + (N % (L + 1) + n) / (L + 1)) (N + n)
        (u || decide (L - N % (L + 1) < n))
    refine ⟨?_, ?_⟩
    · rw [hd] at hcount
      rw [← Nat.add_assoc] at hcount
      rw [Nat.add_right_comm a ((N % (L + 1) + n) / (L + 1))
        ((N + n + rest.sum) / (L + 1))] at hcount
      have := Nat.add_right_cancel hcount
      rw [this, ← Nat.add_assoc]
    · exact ⟨u2, by rw [hstate, ← Nat.add_assoc]⟩

/-- Iterate `CiaTimer::tick_once`, counting the underflows (the number of
`true` returns). -/
def tickOnceRun : CiaTimer → Nat → CiaTimer × Nat
  | t, 0 => (t, 0)
  | t, k + 1 =>
      let s := t.tickOnce
      let r := tickOnceRun s.1 k
      (r.1, (if s.2 then 1 else 0) + r.2)

lemma tickOnceFor_fst (t : CiaTimer) (k : Nat) :
    (tickOnceFor t k).1 = (tickOnceRun t k).1 := by
  induction k generalizing t with
  | zero => rfl
  | succ k ih => simp only [tickOnceFor, tickOnceRun]; exact ih _

lemma tickOnceRun_fst_add (j k : Nat) : ∀ t : CiaTimer,
    (tickOnceRun t (j + k)).1 = (tickOnceRun (tickOnceRun t j).1 k).1 := by
  induction j with
  | zero => intro t; rw [Nat.zero_add]; rfl
  | succ j ih =>
      intro t
      have e : j + 1 + k = (j + k) + 1 := by omega
      rw [e]
      simp only [tickOnceRun]
      exact ih _

lemma tickOnceRun_count (Lb : Nat) : ∀ (m j : Nat) (t : CiaTimer),
    t.latch = Lb → t.running = true → t.oneshot = false →
    t.counter = Lb - j % (Lb + 1) →
    (tickOnceRun t m).2 + j / (Lb + 1) = (j + m) / (Lb + 1) ∧
    (tickOnceRun t m).1.latch = Lb ∧
    (tickOnceRun t m).1.running = true ∧
    (tickOnceRun t m).1.oneshot = false ∧
    (tickOnceRun t m).1.counter = Lb - (j + m) % (Lb + 1) := by
  intro m
  induction m with
  | zero =>
    intro j t h1 h2 h3 h4
    exact ⟨by simp [tickOnceRun], h1, h2, h3, by simpa using h4⟩
  | succ m ih =>
    intro j t h1 h2 h3 h4
    have hrlt : j % (Lb + 1) < Lb + 1 := Nat.mod_lt j (by omega)
    rcases hEq : t with ⟨tc, tl, tr, tos, tu⟩
    rw [hEq] at h1 h2 h3 h4
    simp only [] at h1 h2 h3 h4
    subst tl; subst tr; subst tos; subst tc
    have estep : j + (m + 1) = (j + 1) + m := by omega
    rw [estep]
    by_cases hz : j % (Lb + 1) = Lb
    · -- counter is 0: underflow, reload latch
      have hc0 : Lb - j % (Lb + 1) = 0 := by omega
      have hmod1 : (j + 1) % (Lb + 1) = 0 := by
        rw [mod_add_phase (Lb + 1) j 1, hz, Nat.mod_self]
      have hdiv1 : (j + 1) / (Lb + 1) = j / (Lb + 1) + 1 := by
        rw [div_add_phase (Lb + 1) j 1 (by omega), hz, Nat.div_self (by omega)]
      have hstep :
          (⟨Lb - j % (Lb + 1), Lb, true, false, tu⟩ : CiaTimer).tickOnce =
            (⟨Lb, Lb, true, false, true⟩, true) := by
        rw [CiaTimer.tickOnce]
        rw [if_pos rfl, if_pos hc0]
        rfl
      simp only [tickOnceRun, hstep]
      obtain ⟨hcnt, hl2, hr2, ho2, hc2⟩ :=
        ih (j + 1) ⟨Lb, Lb, true, false, true⟩ rfl rfl rfl
          (by rw [hmod1]; rfl)
      refine ⟨?_, hl2, hr2, ho2, hc2⟩
      rw [hdiv1] at hcnt
      simp only [if_true]
      omega
    · -- counter positive: decrement
      have hcpos : Lb - j % (Lb + 1) ≠ 0 := by omega
      have hmod1 : (j + 1) % (Lb + 1) = j % (Lb + 1) + 1 := by
        rw [mod_add_phase (Lb + 1) j 1]
        exact Nat.mod_eq_of_lt (by omega)
      have hdiv1 : (j + 1) / (Lb + 1) = j / (Lb + 1) := by
        rw [div_add_phase (Lb + 1) j 1 (by omega),
          Nat.div_eq_of_lt (show j % (Lb + 1) + 1 < Lb + 1 by omega), Nat.add_zero]
      have hstep :
          (⟨Lb - j % (Lb + 1), Lb, true, false, tu⟩ : CiaTimer).tickOnce =
            (⟨Lb - (j + 1) % (Lb + 1), Lb, true, false, tu⟩, false) := by
        rw [CiaTimer.tickOnce]
        rw [if_pos rfl, if_neg hcpos]
        rw [hmod1]
        have heq2 : Lb - j % (Lb + 1) - 1 = Lb - (j % (Lb + 1) + 1) := by omega
        rw [Prod.mk.injEq, CiaTimer.mk.injEq]
        exact ⟨⟨heq2, rfl, rfl, rfl, rfl⟩, rfl⟩
      simp only [tickOnceRun, hstep]
      obtain ⟨hcnt, hl2, hr2, ho2, hc2⟩ :=
        ih (j + 1) ⟨Lb - (j + 1) % (Lb + 1), Lb, true, false, tu⟩ rfl rfl rfl rfl
      refine ⟨?_, hl2, hr2, ho2, hc2⟩
      rw [hdiv1] at hcnt
      simpa using hcnt

/-- Projections of `Cia::tick`: Timer A always ticks by the phi2 cycles, the
cascade flag is untouched, and in cascade mode Timer B is stepped exactly
once per Timer-A underflow. -/
lemma cia_tick_proj (c : Cia) (n : Nat) :
    (c.tick n).1.timer_a = (c.timer_a.tick n).1 ∧
    (c.tick n).1.timer_b_counts_a = c.timer_b_counts_a ∧
    (c.timer_b_counts_a = true →
      (c.tick n).1.timer_b = (tickOnceFor c.timer_b (c.timer_a.tick n).2).1) := by
  refine ⟨?_, ?_, ?_⟩
  · unfold Cia.tick
    simp only [apply_ite (f := fun x : Cia => x.timer_a), ite_self]
  · unfold Cia.tick
    simp only [apply_ite (f := fun x : Cia => x.timer_b_counts_a), ite_self]
  · intro hb
    unfold Cia.tick
    simp only [hb, if_true, apply_ite (f := fun x : Cia => x.timer_b), ite_self]

/-- A running, continuous-mode timer whose counter starts equal to its
latch (the configuration named by the claim). -/
def contTimer (L : Nat) : CiaTimer := ⟨L, L, true, false, false⟩

/-- A CIA with both timers running in continuous mode from their latches
and Timer B counting Timer-A underflows. -/
def cascCia (L Lb : Nat) : Cia :=
  { Cia.new with
      timer_a := contTimer L
      timer_b := contTimer Lb
      timer_b_counts_a := true }

/-- Fold `Cia::tick` over a list of cycle counts. -/
def runCia (c : Cia) (ns : List Nat) : Cia :=
  ns.foldl (fun c n => (c.tick n).1) c

lemma runCia_cascade (L : Nat) (b0 : CiaTimer) :
    ∀ (ns : List Nat) (c : Cia) (N : Nat),
    c.timer_b_counts_a = true →
    c.timer_a.latch = L → c.timer_a.running = true → c.timer_a.oneshot = false →
    c.timer_a.counter = L - N % (L + 1) →
    c.timer_b = (tickOnceRun b0 (N / (L + 1))).1 →
    (runCia c ns).timer_a.counter = L - (N + ns.sum) % (L + 1) ∧
    (runCia c ns).timer_b = (tickOnceRun b0 ((N + ns.sum) / (L + 1))).1 := by
  intro ns
  induction ns with
  | nil =>
    intro c N hb hl hr ho hc htb
    simp only [runCia, List.foldl_nil, List.sum_nil, Nat.add_zero]
    exact ⟨hc, htb⟩
  | cons n rest ih =>
    intro c N hb hl hr ho hc htb
    have hrle : N % (L + 1) ≤ L := by
      have := Nat.mod_lt N (y := L + 1) (by omega)
      omega
    rcases hEq : c.timer_a with ⟨tc, tl, tr, tos, tu⟩
    rw [hEq] at hl hr ho hc
    simp only [] at hl hr ho hc
    subst tl; subst tr; subst tos; subst tc
    obtain ⟨hpa, hpb, hpc⟩ := cia_tick_proj c n
    have htick : c.timer_a.tick n =
        (⟨L - (N % (L + 1) + n) % (L + 1), L, true, false,
            tu || decide (L - N % (L + 1) < n)⟩,
          (N % (L + 1) + n) / (L + 1)) := by
      rw [hEq]
      exact tick_phase L (N % (L + 1)) n tu hrle
    have hsum : runCia c (n :: rest) = runCia (c.tick n).1 rest := by
      simp [runCia]
    rw [hsum]
    have hdn : (N + n) / (L + 1) = N / (L + 1) + (N % (L + 1) + n) / (L + 1) :=
      div_add_phase (L + 1) N n (by omega)
    have hmn : (N + n) % (L + 1) = (N % (L + 1) + n) % (L + 1) :=
      mod_add_phase (L + 1) N n
    have hassoc : N + (n + rest.sum) = (N + n) + rest.sum := by omega
    simp only [List.sum_cons]
    rw [hassoc]
    refine ih (c.tick n).1 (N + n) (by rw [hpb, hb]) ?_ ?_ ?_ ?_ ?_
    · rw [hpa, htick]
    · rw [hpa, htick]
    · rw [hpa, htick]
    · rw [hpa, htick, hmn]
    · rw [hpc hb, tickOnceFor_fst, htick]
      simp only []
      rw [htb, ← tickOnceRun_fst_add, ← hdn]

/-- C5: for every split of the cycles into `tick` calls, a running
continuous-mode timer started at its latch underflows exactly once per
`latch + 1` cycles (the cumulative count after any prefix is the prefix sum
divided by `latch + 1`); in cascade mode Timer B advances exactly one
`tick_once` step per Timer-A underflow regardless of the split, and its own
underflows occur exactly once per `latch_b + 1` Timer-A underflows.  The
bounds keep the `Nat` model inside `u16` range. -/
theorem cia_timer_cascade_underflows (L Lb : Nat) (hL : L < 65536)
    (hLb : Lb < 65536) (ns : List Nat) (k m : Nat) :
    (runTicks (contTimer L) (ns.take k)).2 = (ns.take k).sum / (L + 1) ∧
    (runCia (cascCia L Lb) ns).timer_a.counter = L - ns.sum % (L + 1) ∧
    (runCia (cascCia L Lb) ns).timer_b =
      (tickOnceRun (contTimer Lb) (ns.sum / (L + 1))).1 ∧
    (tickOnceRun (contTimer Lb) m).2 = m / (Lb + 1) := by
  refine ⟨?_, ?_, ?_, ?_⟩
  · have h0 : contTimer L = ⟨L - 0 % (L + 1), L, true, false, false⟩ := by
      simp [contTimer]
    have := (runTicks_foldl_aux L (ns.take k) 0 0 false).1
    rw [runTicks, h0]
    simpa using this
  · have h := runCia_cascade L (contTimer Lb) ns (cascCia L Lb) 0
      rfl rfl rfl rfl (by simp [cascCia, contTimer]) (by simp [cascCia, tickOnceRun])
    simpa using h.1
  · have h := runCia_cascade L (contTimer Lb) ns (cascCia L Lb) 0
      rfl rfl rfl rfl (by simp [cascCia, contTimer]) (by simp [cascCia, tickOnceRun])
    simpa using h.2
  · have h := (tickOnceRun_count Lb m 0 (contTimer Lb) rfl rfl rfl
      (by simp [contTimer])).1
    simpa using h

/-- C5 witness: a concrete cascade configuration (Timer A latch 2, Timer B
latch 1, ticks 3 and 4 cycles). -/
theorem cia_timer_cascade_underflows_witness :
    (runTicks (contTimer 2) ([3, 4].take 2)).2 = ([3, 4].take 2).sum / (2 + 1) ∧
    (runCia (cascCia 2 1) [3, 4]).timer_a.counter = 2 - [3, 4].sum % (2 + 1) ∧
    (runCia (cascCia 2 1) [3, 4]).timer_b =
      (tickOnceRun (contTimer 1) ([3, 4].sum / (2 + 1))).1 ∧
    (tickOnceRun (contTimer 1) 5).2 = 5 / (1 + 1) :=
  cia_timer_cascade_underflows 2 1 (by decide) (by decide) [3, 4] 2 5

/-! ### `clear_stale_ints` on the RSID bus (src/player/rsid_bus.rs lines
331-340, over the `c64_emu` CIA components)

`EmuTimer` and `InterruptSource` carry every field of the corresponding
`c64_emu` structs (`Timer` in c64_emu/cia/timer.rs, `InterruptSource` in
c64_emu/cia/interrupt.rs); `EmuCia` keeps the three fields of `Mos652x`
that `RsidBus::clear_stale_ints` touches (`regs`, `tod`, `clock` and the
serial shift counter are never read or written by it). -/

/-- `CiaModel` from c64_emu/cia/interrupt.rs. -/
inductive EmuCiaModel where
  | Mos6526
  | Mos8521
  | Mos6526W4485
  deriving DecidableEq, Repr

/-- `Timer` from c64_emu/cia/timer.rs (`state` is the `u32` state word;
`CIAT_CR_START = 0x01`). -/
structure EmuTimer where
  counter : Nat
  latch : Nat
  state : Nat
  pb_toggle : Bool
  last_control : Nat
  deriving DecidableEq, Repr

/-- `Timer::started`. -/
def EmuTimer.started (t : EmuTimer) : Bool := decide (t.state &&& 0x01 ≠ 0)

/-- `InterruptSource` from c64_emu/cia/interrupt.rs. -/
structure InterruptSource where
  model : EmuCiaModel
  icr : Nat
  idr : Nat
  asserted : Bool
  pending_trigger : Option Nat
  deriving DecidableEq, Repr

/-- `InterruptSource::clear`: acknowledge — zero the IDR, drop the line,
return the old flags. -/
def InterruptSource.clear (i : InterruptSource) : InterruptSource × Nat :=
  ({ i with idr := 0, asserted := false }, i.idr)

/-- The timer/interrupt components of a `c64_emu` CIA (`Mos652x`). -/
structure EmuCia where
  timer_a : EmuTimer
  timer_b : EmuTimer
  interrupt : InterruptSource
  deriving DecidableEq, Repr

/-- The two CIAs of the RSID bus's `c64_emu::C64`. -/
structure RsidCias where
  cia1 : EmuCia
  cia2 : EmuCia
  deriving DecidableEq, Repr

/-- `RsidBus::clear_stale_ints`: when a CIA's **Timer A** is not started,
clear that CIA's whole pending-interrupt register.  (Timer B is never
examined.) -/
def rsid_clear_stale_ints (b : RsidCias) : RsidCias :=
  let b1 :=
    if b.cia1.timer_a.started then b
    else { b with cia1 := { b.cia1 with interrupt := b.cia1.interrupt.clear.1 } }
  if b1.cia2.timer_a.started then b1
  else { b1 with cia2 := { b1.cia2 with interrupt := b1.cia2.interrupt.clear.1 } }

/-- An RSID bus state whose CIA1 has Timer A started, Timer B stopped, and
the Timer-B underflow flag (bit 1) pending and asserted. -/
def c6Bus : RsidCias :=
  { cia1 :=
      { timer_a := ⟨0xFFFF, 0xFFFF, 0x01, false, 0⟩
        timer_b := ⟨0xFFFF, 0xFFFF, 0x00, false, 0⟩
        interrupt := ⟨EmuCiaModel.Mos6526, 0x02, 0x02, true, none⟩ }
    cia2 :=
      { timer_a := ⟨0xFFFF, 0xFFFF, 0x01, false, 0⟩
        timer_b := ⟨0xFFFF, 0xFFFF, 0x00, false, 0⟩
        interrupt := ⟨EmuCiaModel.Mos6526, 0x00, 0x00, false, none⟩ } }

/-- C6 counterexample: on the RSID bus, `clear_stale_ints` leaves the
pending underflow flag of a stopped Timer B set (and the line asserted)
whenever Timer A is still started, contradicting the claim that every
stopped timer has its pending flag cleared. -/
theorem rsid_clear_stale_b_flag_survives :
    c6Bus.cia1.timer_b.started = false ∧
    (rsid_clear_stale_ints c6Bus).cia1.timer_b.started = false ∧
    (rsid_clear_stale_ints c6Bus).cia1.interrupt.idr &&& 0x02 ≠ 0 ∧
    (rsid_clear_stale_ints c6Bus).cia1.interrupt.asserted = true := by
  decide

lemma clear_bit0_a (x : Nat) : x &&& 254 &&& 1 = 0 := by
  rw [Nat.and_assoc, show (254 : Nat) &&& 1 = 0 from by decide, Nat.and_zero]

lemma clear_bit0_ab (x : Nat) : x &&& 254 &&& 253 &&& 1 = 0 := by
  rw [Nat.and_assoc, show (253 : Nat) &&& 1 = 1 from by decide, clear_bit0_a]

lemma clear_bit1_b (x : Nat) : x &&& 253 &&& 2 = 0 := by
  rw [Nat.and_assoc, show (253 : Nat) &&& 2 = 0 from by decide, Nat.and_zero]

lemma clear_bit1_ab (x : Nat) : x &&& 254 &&& 253 &&& 2 = 0 := by
  rw [Nat.and_assoc, show (253 : Nat) &&& 2 = 0 from by decide, Nat.and_zero]

/-- C6 amended: the PSID `Cia::clear_stale_ints` clears the pending flag
and underflow bit of every stopped timer and only keeps the interrupt line
asserted when a masked flag remains; the RSID `clear_stale_ints` instead
clears a CIA's whole pending register exactly when that CIA's Timer A is
not started, and leaves the CIA untouched (stopped Timer B included) when
Timer A is started. -/
theorem clear_stale_ints_amended (c : Cia) (b : RsidCias) :
    (c.timer_a.running = false →
      c.clear_stale_ints.int_data &&& 0x01 = 0 ∧
      c.clear_stale_ints.timer_a.underflow = false) ∧
    (c.timer_b.running = false →
      c.clear_stale_ints.int_data &&& 0x02 = 0 ∧
      c.clear_stale_ints.timer_b.underflow = false) ∧
    (c.clear_stale_ints.int_line = true →
      c.clear_stale_ints.int_data &&& c.clear_stale_ints.int_mask ≠ 0) ∧
    (b.cia1.timer_a.started = false →
      (rsid_clear_stale_ints b).cia1.interrupt.idr = 0 ∧
      (rsid_clear_stale_ints b).cia1.interrupt.asserted = false) ∧
    (b.cia1.timer_a.started = true →
      (rsid_clear_stale_ints b).cia1 = b.cia1) ∧
    (b.cia2.timer_a.started = false →
      (rsid_clear_stale_ints b).cia2.interrupt.idr = 0 ∧
      (rsid_clear_stale_ints b).cia2.interrupt.asserted = false) ∧
    (b.cia2.timer_a.started = true →
      (rsid_clear_stale_ints b).cia2 = b.cia2) := by
  refine ⟨?_, ?_, ?_, ?_, ?_, ?_, ?_⟩
  · intro hA
    simp only [Cia.clear_stale_ints]
    rw [if_neg (show ¬ c.timer_a.running = true by simp [hA])]
    split
    all_goals split
    all_goals
      first
        | exact ⟨clear_bit0_a _, rfl⟩
        | exact ⟨clear_bit0_ab _, rfl⟩
  · intro hB
    simp only [Cia.clear_stale_ints]
    split
    all_goals rw [if_neg (show ¬ c.timer_b.running = true by simp [hB])]
    all_goals split
    all_goals
      first
        | exact ⟨clear_bit1_b _, rfl⟩
        | exact ⟨clear_bit1_ab _, rfl⟩
  · by_cases hA : c.timer_a.running
    all_goals by_cases hB : c.timer_b.running
    all_goals simp only [Cia.clear_stale_ints]
    all_goals
      first
        | rw [if_pos (show c.timer_a.running = true from hA)]
        | rw [if_neg (show ¬ c.timer_a.running = true from hA)]
    all_goals
      first
        | rw [if_pos (show c.timer_b.running = true from hB)]
        | rw [if_neg (show ¬ c.timer_b.running = true from hB)]
    all_goals split
    all_goals intro hline
    all_goals
      first
        | (rename_i h; exact h)
        | (exact absurd hline (by simp))
  · intro h1
    by_cases h2 : b.cia2.timer_a.started
    · simp [rsid_clear_stale_ints, InterruptSource.clear, h1, h2]
    · simp [rsid_clear_stale_ints, InterruptSource.clear, h1, h2]
  · intro h1
    by_cases h2 : b.cia2.timer_a.started
    · simp [rsid_clear_stale_ints, InterruptSource.clear, h1, h2]
    · simp [rsid_clear_stale_ints, InterruptSource.clear, h1, h2]
  · intro h2
    by_cases h1 : b.cia1.timer_a.started
    · simp [rsid_clear_stale_ints, InterruptSource.clear, h1, h2]
    · simp [rsid_clear_stale_ints, InterruptSource.clear, h1, h2]
  · intro h2
    by_cases h1 : b.cia1.timer_a.started
    · simp [rsid_clear_stale_ints, InterruptSource.clear, h1, h2]
    · simp [rsid_clear_stale_ints, InterruptSource.clear, h1, h2]

/-- C6 amended witness: a CIA with both timers stopped and stale flags, and
the RSID bus state of the counterexample. -/
theorem clear_stale_ints_amended_witness :
    (({ Cia.new with int_data := 0x03, int_mask := 0x03, int_line := true } :
        Cia).clear_stale_ints.int_data &&& 0x01 = 0 ∧
      ({ Cia.new with int_data := 0x03, int_mask := 0x03, int_line := true } :
        Cia).clear_stale_ints.timer_a.underflow = false) ∧
    ((rsid_clear_stale_ints c6Bus).cia1 = c6Bus.cia1) := by
  constructor
  · exact (clear_stale_ints_amended
      { Cia.new with int_data := 0x03, int_mask := 0x03, int_line := true }
      c6Bus).1 rfl
  · exact (clear_stale_ints_amended
      { Cia.new with int_data := 0x03, int_mask := 0x03, int_line := true }
      c6Bus).2.2.2.2.1 rfl

/-! ### VIC-II register file (src/player/memory.rs lines 424-574) -/

/-- `Vic` from memory.rs; the 64-entry shadow register array is a function. -/
structure Vic where
  raster_counter : Nat
  raster_compare : Nat
  raster_irq_enabled : Bool
  irq_status : Nat
  cycle_accum : Nat
  cycles_per_line : Nat
  lines_per_frame : Nat
  d011 : Nat
  irq_line : Bool
  raster_triggered : Bool
  stolen_cycles : Nat
  new_frame : Bool
  regs : Nat → Nat

/-- `Vic::new`. -/
def Vic.new (is_pal : Bool) : Vic :=
  { raster_counter := 0
    raster_compare := 0x137
    raster_irq_enabled := false
    irq_status := 0
    cycle_accum := 0
    cycles_per_line := if is_pal then 63 else 65
    lines_per_frame := if is_pal then 312 else 263
    d011 := 0x1B
    irq_line := false
    raster_triggered := false
    stolen_cycles := 0
    new_frame := false
    regs := fun i =>
      if i = 0x11 then 0x1B
      else if i = 0x16 then 0xC8
      else if i = 0x18 then 0x14
      else if i = 0x20 then 0x0E
      else if i = 0x21 then 0x06
      else 0 }

/-- `Vic::write` from memory.rs.  `!value` on `u8` is `0xFF ^^^ value`; the
shadow-register store happens before the dispatch (the redundant re-stores
inside the `0x11`/`0x12`/`0x1A` arms write the same value again and are
omitted). -/
def Vic.write (v : Vic) (offset value : Nat) : Vic :=
  let off := offset &&& 0x3F
  let v1 :=
    if off < 0x20 ∨ (0x20 ≤ off ∧ off ≤ 0x2E) then
      { v with regs := fun i => if i = off then value else v.regs i }
    else v
  if off = 0x11 then
    { v1 with
        d011 := value
        raster_compare := (v1.raster_compare &&& 0x00FF) ||| ((value &&& 0x80) <<< 1) }
  else if off = 0x12 then
    { v1 with raster_compare := (v1.raster_compare &&& 0x0100) ||| value }
  else if off = 0x19 then
    let s := v1.irq_status &&& (0xFF ^^^ value)
    if s &&& 0x0F = 0 then
      { v1 with irq_status := s &&& (0xFF ^^^ 0x80), irq_line := false }
    else
      { v1 with irq_status := s }
  else if off = 0x1A then
    let enabled := decide (value &&& 0x01 ≠ 0)
    if enabled && decide (v1.irq_status &&& 0x01 ≠ 0) then
      { v1 with
          raster_irq_enabled := enabled
          irq_status := v1.irq_status ||| 0x80
          irq_line := true }
    else
      { v1 with raster_irq_enabled := enabled }
  else v1

/-- A reachable VIC state: raster interrupt pending and asserted
(`irq_status = 0x81`, line high). -/
def vic0 : Vic :=
  { Vic.new true with
      irq_status := 0x81
      irq_line := true
      raster_irq_enabled := true
      raster_triggered := true }

/-- C7 counterexample: acknowledging the raster flag (writing 0x01 to
register 0x19) clears bit 7 and drops the IRQ line, so the resulting status
byte is 0x00 and not the claimed
`irq_status &&& ((!data &&& 0x0F) ||| 0x80) = 0x80`. -/
theorem vic_ack_preserves_bit7_counterexample :
    (Vic.write vic0 0x19 0x01).irq_status = 0x00 ∧
    vic0.irq_status &&& (((0xFF ^^^ 0x01) &&& 0x0F) ||| 0x80) = 0x80 ∧
    (Vic.write vic0 0x19 0x01).irq_status ≠
      vic0.irq_status &&& (((0xFF ^^^ 0x01) &&& 0x0F) ||| 0x80) ∧
    (Vic.write vic0 0x19 0x01).irq_line = false := by
  refine ⟨?_, by decide, ?_, ?_⟩ <;> decide

lemma vic_write19_eq (v : Vic) (value : Nat) :
    v.write 0x19 value =
      if (v.irq_status &&& (0xFF ^^^ value)) &&& 0x0F = 0 then
        { v with
            regs := fun i => if i = 0x19 then value else v.regs i
            irq_status := (v.irq_status &&& (0xFF ^^^ value)) &&& (0xFF ^^^ 0x80)
            irq_line := false }
      else
        { v with
            regs := fun i => if i = 0x19 then value else v.regs i
            irq_status := v.irq_status &&& (0xFF ^^^ value) } := by
  simp only [Vic.write, show ((0x19 : Nat) &&& 0x3F) = 0x19 from by decide]
  norm_num

/-- C7 amended: a write of `data` to VIC register 0x19 first clears exactly
the status bits set in `data` (`irq_status &&& !data`); if no low-nibble
flag remains, bit 7 is also cleared and the IRQ line deasserted, otherwise
the line is untouched.  In particular writing 0xFF clears all
acknowledgeable flags and deasserts the line. -/
theorem vic_write_ack_amended (v : Vic) (value : Nat) (hv : value < 256)
    (hs : v.irq_status < 256) :
    ((v.write 0x19 value).irq_status =
      if (v.irq_status &&& (0xFF ^^^ value)) &&& 0x0F = 0 then
        (v.irq_status &&& (0xFF ^^^ value)) &&& 0x7F
      else v.irq_status &&& (0xFF ^^^ value)) ∧
    ((v.write 0x19 value).irq_line =
      if (v.irq_status &&& (0xFF ^^^ value)) &&& 0x0F = 0 then false
      else v.irq_line) ∧
    (v.write 0x19 0xFF).irq_status = 0 ∧
    (v.write 0x19 0xFF).irq_line = false := by
  have hff : v.irq_status &&& (0xFF ^^^ 0xFF) = 0 := by
    rw [show ((0xFF : Nat) ^^^ 0xFF) = 0 from by decide, Nat.and_zero]
  refine ⟨?_, ?_, ?_, ?_⟩
  · by_cases hC : (v.irq_status &&& (0xFF ^^^ value)) &&& 0x0F = 0
    · rw [vic_write19_eq, if_pos hC, if_pos hC,
        show ((0xFF : Nat) ^^^ 0x80) = 0x7F from by decide]
    · rw [vic_write19_eq, if_neg hC, if_neg hC]
  · by_cases hC : (v.irq_status &&& (0xFF ^^^ value)) &&& 0x0F = 0
    · rw [vic_write19_eq, if_pos hC, if_pos hC]
    · rw [vic_write19_eq, if_neg hC, if_neg hC]
  · rw [vic_write19_eq, if_pos (by rw [hff]; decide)]
    simp only [hff]
    rw [Nat.zero_and]
  · rw [vic_write19_eq, if_pos (by rw [hff]; decide)]

/-- C7 amended witness: the concrete acknowledged state of the
counterexample instantiates every conjunct. -/
theorem vic_write_ack_amended_witness :
    ((vic0.write 0x19 0x01).irq_status =
      if (vic0.irq_status &&& (0xFF ^^^ 0x01)) &&& 0x0F = 0 then
        (vic0.irq_status &&& (0xFF ^^^ 0x01)) &&& 0x7F
      else vic0.irq_status &&& (0xFF ^^^ 0x01)) ∧
    ((vic0.write 0x19 0x01).irq_line =
      if (vic0.irq_status &&& (0xFF ^^^ 0x01)) &&& 0x0F = 0 then false
      else vic0.irq_line) ∧
    (vic0.write 0x19 0xFF).irq_status = 0 ∧
    (vic0.write 0x19 0xFF).irq_line = false :=
  vic_write_ack_amended vic0 0x01 (by decide) (by decide)

/-! ### MMU pseudo-random last-bus-byte (src/c64_emu/mmu.rs lines 119-127) -/

/-- `Mmu::last_read_byte`: step the 32-bit seed by the LCG (wrapping) and
return `(seed >> 16) as u8`.  The result pair is (new seed, returned
byte). -/
def last_read_byte (seed : Nat) : Nat × Nat :=
  let s := (seed * 1664525 + 1013904223) % 4294967296
  (s, (s >>> 16) % 256)

/-- The LCG step named by the claim. -/
def lcgStep (s : Nat) : Nat := (s * 1664525 + 1013904223) % 4294967296

/-- The high byte of a 32-bit value (bits 24-31), as the claim's words
demand. -/
def highByteU32 (x : Nat) : Nat := x >>> 24

/-- Bits 16-23 of a 32-bit value — what the code actually returns. -/
def byte2U32 (x : Nat) : Nat := (x >>> 16) % 256

/-- C8 counterexample: from the MMU's initial seed 3 686 734 the stepped
seed is 0x09ED5855; the code returns bits 16-23 (0xED = 237), not the high
byte (0x09). -/
theorem last_read_byte_high_byte_counterexample :
    (last_read_byte 3686734).2 = 237 ∧
    highByteU32 (last_read_byte 3686734).1 = 9 ∧
    (last_read_byte 3686734).2 ≠ highByteU32 (last_read_byte 3686734).1 := by
  refine ⟨?_, ?_, ?_⟩ <;> decide

/-- C8 amended: the generator steps the seed by the LCG with multiplier
1 664 525 and increment 1 013 904 223 (wrapping mod 2^32) and returns byte 2
(bits 16-23) of the new seed — `(seed >> 16) as u8` — rather than the high
byte. -/
theorem last_read_byte_amended (seed : Nat) :
    last_read_byte seed = (lcgStep seed, byte2U32 (lcgStep seed)) := by
  rfl

/-! ### `run_rsid_init_emu` / `setup_rsid_engine` (src/player/mod.rs lines
912-1109)

The INIT runner's control flow is embedded over an abstract machine: the
state type `σ` stands for the `CPU<RsidBus, Nmos6502>` value and the record
fields are the operations the loop calls on it (`single_step`,
`tick_peripherals`, `opcode_cycles`, interrupt delivery, and the fields the
readiness check reads).  `opcodeCycles_pos` records that every entry of the
`OPCODE_CYCLES` table is positive (they are all ≥ 2), which is what makes
the Rust loop terminate. -/

/-- Abstract machine interface used by `run_rsid_init_emu`. -/
structure InitEmu (σ : Type) where
  pc : σ → Nat
  opcodeCycles : σ → Nat
  singleStep : σ → σ
  tickPeripherals : σ → σ
  newFrame : σ → Bool
  clearNewFrame : σ → σ
  tickJiffy : σ → σ
  irqPending : σ → Bool
  deliverIrq : σ → σ × Nat
  nmiPending : σ → Bool
  deliverNmi : σ → σ × Nat
  irqVec : σ → Nat
  nmiVec : σ → Nat
  vicRasterIrqMask : σ → Bool
  cia1TaStarted : σ → Bool
  cia1TaMask : σ → Bool
  nmiHwVec : σ → Nat
  cia2Mask : σ → Nat
  cia2TaStarted : σ → Bool
  opcodeCycles_pos : ∀ s, 0 < opcodeCycles s

/-- Run `tick_peripherals` once per cycle (`for _ in 0..n`). -/
def tickN {σ : Type} (M : InitEmu σ) (s : σ) : Nat → σ
  | 0 => s
  | n + 1 => tickN M (M.tickPeripherals s) n

/-- The jiffy-clock block: on a VIC frame boundary clear `new_frame` and
bump the jiffy clock. -/
def jiffyPhase {σ : Type} (M : InitEmu σ) (s : σ) : σ :=
  if M.newFrame s then M.tickJiffy (M.clearNewFrame s) else s

/-- The level-triggered IRQ block: deliver when pending, and account the
delivery cycles (with per-cycle peripheral ticking) when any were spent. -/
def irqPhase {σ : Type} (M : InitEmu σ) (s : σ) (cd : Nat) : σ × Nat :=
  if M.irqPending s then
    let p := M.deliverIrq s
    if 0 < p.2 then (tickN M p.1 p.2, cd + p.2) else (p.1, cd)
  else (s, cd)

/-- The edge-triggered NMI block: deliver on a rising edge of the NMI
line. -/
def nmiPhase {σ : Type} (M : InitEmu σ) (s : σ) (prev cur : Bool) (cd : Nat) :
    σ × Nat :=
  if cur && !prev then
    let q := M.deliverNmi s
    (tickN M q.1 q.2, cd + q.2)
  else (s, cd)

/-- The periodic playback-ready check (`irq_ready || nmi_ready`). -/
def initReady {σ : Type} (M : InitEmu σ) (s : σ) : Bool :=
  (decide (M.irqVec s ≠ 0xEA31) &&
      (M.vicRasterIrqMask s || (M.cia1TaMask s && M.cia1TaStarted s))) ||
    ((decide (M.nmiVec s ≠ 0xFE72) || decide (M.nmiHwVec s ≠ 0xFE43)) &&
      decide (M.cia2Mask s ≠ 0) && M.cia2TaStarted s)

lemma irqPhase_cd_le {σ : Type} (M : InitEmu σ) (s : σ) (cd : Nat) :
    cd ≤ (irqPhase M s cd).2 := by
  unfold irqPhase
  split
  · by_cases h : 0 < (M.deliverIrq s).2
    · rw [if_pos h]
      simp
    · rw [if_neg h]
  · simp

lemma nmiPhase_cd_le {σ : Type} (M : InitEmu σ) (s : σ) (p c : Bool) (cd : Nat) :
    cd ≤ (nmiPhase M s p c cd).2 := by
  unfold nmiPhase
  split
  · simp
  · simp

/-- The main loop of `run_rsid_init_emu`: `s` is the CPU+bus state,
`cycles_done`, `prev_nmi` and `check_cycles` are the local variables of the
Rust function, `idle_pc` the CLI idle-loop address and `max_cycles` the
30 000 000-cycle budget. -/
def run_rsid_init_emu {σ : Type} (M : InitEmu σ) (idle_pc : Nat) (s : σ)
    (cycles_done : Nat) (prev_nmi : Bool) (check_cycles : Nat)
    (max_cycles : Nat) : Bool × Bool :=
  if h : cycles_done < max_cycles then
    if M.pc s = idle_pc then (true, prev_nmi)
    else
      let inst := M.opcodeCycles s
      let s1 := tickN M (M.singleStep s) inst
      let s2 := jiffyPhase M s1
      let r3 := irqPhase M s2 (cycles_done + inst)
      let cur := M.nmiPending r3.1
      let r4 := nmiPhase M r3.1 prev_nmi cur r3.2
      if 50000 ≤ check_cycles + inst then
        if initReady M r4.1 then (false, cur)
        else run_rsid_init_emu M idle_pc r4.1 r4.2 cur 0 max_cycles
      else run_rsid_init_emu M idle_pc r4.1 r4.2 cur (check_cycles + inst) max_cycles
  else (false, prev_nmi)
termination_by max_cycles - cycles_done
decreasing_by
  all_goals
    have h1 : 0 < M.opcodeCycles s := M.opcodeCycles_pos s
    have h2 : cycles_done + M.opcodeCycles s ≤
        (irqPhase M (jiffyPhase M (tickN M (M.singleStep s) (M.opcodeCycles s)))
          (cycles_done + M.opcodeCycles s)).2 :=
      irqPhase_cd_le _ _ _
    have h3 := nmiPhase_cd_le M
      (irqPhase M (jiffyPhase M (tickN M (M.singleStep s) (M.opcodeCycles s)))
        (cycles_done + M.opcodeCycles s)).1
      prev_nmi
      (M.nmiPending
        (irqPhase M (jiffyPhase M (tickN M (M.singleStep s) (M.opcodeCycles s)))
          (cycles_done + M.opcodeCycles s)).1)
      (irqPhase M (jiffyPhase M (tickN M (M.singleStep s) (M.opcodeCycles s)))
        (cycles_done + M.opcodeCycles s)).2
    omega

/-- The tail of `setup_rsid_engine` acting on the CPU status register: when
INIT did not return, `Status::PS_DISABLE_INTERRUPTS` (bit 2, value 0x04) is
removed. -/
def setup_rsid_post_init (init_returned : Bool) (status : Nat) : Nat :=
  if init_returned then status else status &&& 0xFB

lemma run_budget {σ : Type} (M : InitEmu σ) (idle : Nat) (s : σ)
    (cd : Nat) (pn : Bool) (cc mx : Nat) (h : mx ≤ cd) :
    run_rsid_init_emu M idle s cd pn cc mx = (false, pn) := by
  rw [run_rsid_init_emu]
  rw [dif_neg (by omega)]

lemma run_no_idle {σ : Type} (M : InitEmu σ) (idle : Nat)
    (h : ∀ t, M.pc t ≠ idle) :
    ∀ (fuel : Nat) (s : σ) (cd : Nat) (pn : Bool) (cc mx : Nat),
      mx - cd ≤ fuel →
      (run_rsid_init_emu M idle s cd pn cc mx).1 = false := by
  intro fuel
  induction fuel with
  | zero =>
    intro s cd pn cc mx hle
    rw [run_rsid_init_emu, dif_neg (by omega)]
  | succ fuel ih =>
    intro s cd pn cc mx hle
    by_cases hcd : cd < mx
    · rw [run_rsid_init_emu, dif_pos hcd, if_neg (h s)]
      simp only []
      have hinst := M.opcodeCycles_pos s
      have h2 := irqPhase_cd_le M
        (jiffyPhase M (tickN M (M.singleStep s) (M.opcodeCycles s)))
        (cd + M.opcodeCycles s)
      have h3 := nmiPhase_cd_le M
        (irqPhase M (jiffyPhase M (tickN M (M.singleStep s) (M.opcodeCycles s)))
          (cd + M.opcodeCycles s)).1
        pn
        (M.nmiPending
          (irqPhase M (jiffyPhase M (tickN M (M.singleStep s) (M.opcodeCycles s)))
            (cd + M.opcodeCycles s)).1)
        (irqPhase M (jiffyPhase M (tickN M (M.singleStep s) (M.opcodeCycles s)))
          (cd + M.opcodeCycles s)).2
      by_cases hchk : 50000 ≤ cc + M.opcodeCycles s
      · rw [if_pos hchk]
        split
        · rfl
        · exact ih _ _ _ _ _ (by omega)
      · rw [if_neg hchk]
        exact ih _ _ _ _ _ (by omega)
    · rw [run_rsid_init_emu, dif_neg hcd]

/-- C3: when the cycle budget is reached, `run_rsid_init_emu` returns
`(init_returned = false, prev_nmi)` where `prev_nmi` is the NMI-line sample
carried by the loop (updated to the current NMI line state after each
instruction); if the CPU never reaches the idle halt address (and hence no
matter whether the readiness checks fire) the whole run also reports
`init_returned = false`; and `setup_rsid_engine` then clears the
interrupt-disable status bit (0x04) from the CPU status byte. -/
theorem rsid_init_budget_exhaustion {σ : Type} (M : InitEmu σ) (idle : Nat)
    (s s2 : σ) (cd cd2 : Nat) (pn pn2 : Bool) (cc cc2 mx st : Nat)
    (hbudget : mx ≤ cd) (hst : st < 256) (hidle : ∀ t, M.pc t ≠ idle) :
    run_rsid_init_emu M idle s cd pn cc mx = (false, pn) ∧
    setup_rsid_post_init (run_rsid_init_emu M idle s cd pn cc mx).1 st =
      st &&& 0xFB ∧
    setup_rsid_post_init (run_rsid_init_emu M idle s cd pn cc mx).1 st &&&
      0x04 = 0 ∧
    (run_rsid_init_emu M idle s2 cd2 pn2 cc2 mx).1 = false := by
  have h1 := run_budget M idle s cd pn cc mx hbudget
  refine ⟨h1, ?_, ?_, run_no_idle M idle hidle mx s2 cd2 pn2 cc2 mx (by omega)⟩
  · rw [h1]
    rfl
  · rw [h1]
    show st &&& 0xFB &&& 0x04 = 0
    rw [Nat.and_assoc, show ((0xFB : Nat) &&& 0x04) = 0 from by decide,
      Nat.and_zero]

/-- A trivial machine instance used to witness the INIT-runner theorem. -/
def unitInitEmu : InitEmu Unit :=
  { pc := fun _ => 0
    opcodeCycles := fun _ => 2
    singleStep := id
    tickPeripherals := id
    newFrame := fun _ => false
    clearNewFrame := id
    tickJiffy := id
    irqPending := fun _ => false
    deliverIrq := fun s => (s, 0)
    nmiPending := fun _ => false
    deliverNmi := fun s => (s, 0)
    irqVec := fun _ => 0xEA31
    nmiVec := fun _ => 0xFE72
    vicRasterIrqMask := fun _ => false
    cia1TaStarted := fun _ => false
    cia1TaMask := fun _ => false
    nmiHwVec := fun _ => 0xFE43
    cia2Mask := fun _ => 0
    cia2TaStarted := fun _ => false
    opcodeCycles_pos := fun _ => Nat.succ_pos 1 }

/-- C3 witness: the theorem instantiated on the trivial machine with budget
already exhausted (and a full run with idle address 1, never reached). -/
theorem rsid_init_budget_exhaustion_witness :
    run_rsid_init_emu unitInitEmu 1 () 5 false 0 5 = (false, false) ∧
    setup_rsid_post_init
      (run_rsid_init_emu unitInitEmu 1 () 5 false 0 5).1 0x27 =
        0x27 &&& 0xFB ∧
    setup_rsid_post_init
      (run_rsid_init_emu unitInitEmu 1 () 5 false 0 5).1 0x27 &&& 0x04 = 0 ∧
    (run_rsid_init_emu unitInitEmu 1 () 0 false 0 5).1 = false :=
  rsid_init_budget_exhaustion unitInitEmu 1 () () 5 0 false false 0 0 5 0x27
    (by decide) (by decide) (fun t => Nat.zero_ne_one)

/-! ### Fixed-point `ExternalFilter` (src/sid_emulated.rs lines 66-117)

The `i32` arithmetic is modelled over `Int`; the arithmetic right shifts
`>> 7`, `>> 17` and `>> 11` are floor divisions (`Int.fdiv`) by 128, 131072
and 2048.  The amended theorem shows the state stays far inside the `i32`
range on the stated coefficient and input ranges, so the `Int` model and the
two's-complement code agree.  The coefficients are the structure fields set
by `set_clock_frequency` (12 and 1 for PAL, 11 and 1 for NTSC). -/

/-- `ExternalFilter` from sid_emulated.rs. -/
structure ExternalFilter where
  vlp : Int
  vhp : Int
  w0lp_1_s7 : Int
  w0hp_1_s17 : Int
  deriving DecidableEq, Repr

/-- Rust `i32::clamp(i16::MIN as i32, i16::MAX as i32)`. -/
def clampI16 (x : Int) : Int := min (max x (-32768)) 32767

/-- `ExternalFilter::clock`: one multiply-shift per stage, output clamped
to the `i16` range. -/
def ExternalFilter.clock (f : ExternalFilter) (input : Int) :
    ExternalFilter × Int :=
  let vi := input * 2048
  let dvlp := Int.fdiv (f.w0lp_1_s7 * (vi - f.vlp)) 128
  let dvhp := Int.fdiv (f.w0hp_1_s17 * (f.vlp - f.vhp)) 131072
  let vlp := f.vlp + dvlp
  let vhp := f.vhp + dvhp
  ({ f with vlp := vlp, vhp := vhp }, clampI16 (Int.fdiv (vlp - vhp) 2048))

/-- Iterate `clock` with a constant input, keeping the state. -/
def runClock (f : ExternalFilter) (c : Int) : Nat → ExternalFilter
  | 0 => f
  | n + 1 => ((runClock f c n).clock c).1

/-- The output produced by the `(n+1)`-st `clock` call under constant
input `c`. -/
def filterOut (f : ExternalFilter) (c : Int) (n : Nat) : Int :=
  ((runClock f c n).clock c).2

/-- The PAL filter right after `reset` and `set_clock_frequency(985248)`:
`w0lp_1_s7 = 12`, `w0hp_1_s17 = 1`. -/
def palFilter : ExternalFilter := ⟨0, 0, 12, 1⟩

/-- The claim of C9's second half, as stated: under any constant input the
output converges to zero. -/
def convergesToZero (f : ExternalFilter) (c : Int) : Prop :=
  ∃ N, ∀ n, N ≤ n → filterOut f c n = 0

/-- C9 counterexample: with constant input 2 the PAL filter reaches, by
step 70, a fixed state with output 1, so the output never converges to
zero: the truncating high-pass stage leaves a DC residual. -/
theorem externalFilter_dc_residual_counterexample :
    ¬ convergesToZero palFilter 2 := by
  intro hcz
  obtain ⟨N, hN⟩ := hcz
  have hfixstep : ((runClock palFilter 2 70).clock 2).1 = runClock palFilter 2 70 := by
    decide
  have hfix : ∀ k, runClock palFilter 2 (70 + k) = runClock palFilter 2 70 := by
    intro k
    induction k with
    | zero => rfl
    | succ k ih =>
        show ((runClock palFilter 2 (70 + k)).clock 2).1 = _
        rw [ih, hfixstep]
  have hout : filterOut palFilter 2 70 = 1 := by decide
  have h1 := hN (70 + N) (by omega)
  rw [filterOut] at h1
  rw [hfix N] at h1
  rw [← filterOut, hout] at h1
  exact absurd h1 (by decide)

/-! Convergence machinery for the amended C9: a truncating first-order
stage `x := x + (w * (t - x)) >> s` reaches a fixed point in finitely many
steps, and at the fixed point the residual `t - x` sits in `[0, m/w)`. -/

/-- One step of a truncating first-order tracking stage. -/
def stepTo (w m t x : Int) : Int := x + Int.fdiv (w * (t - x)) m

lemma fdiv_eq_zero_iff (a b : Int) (hb : 0 < b) :
    Int.fdiv a b = 0 ↔ 0 ≤ a ∧ a < b := by
  rw [Int.fdiv_eq_ediv _ (le_of_lt hb)]
  constructor
  · intro h
    have hmod := Int.emod_nonneg a (ne_of_gt hb)
    have hmod2 := Int.emod_lt_of_pos a hb
    have heq := Int.ediv_add_emod a b
    rw [h, mul_zero, zero_add] at heq
    constructor <;> omega
  · intro ⟨h1, h2⟩
    exact Int.ediv_eq_zero_of_lt h1 h2

lemma stepTo_dec (w m t x : Int) (hw : 1 ≤ w) (hwm : w ≤ m)
    (hne : stepTo w m t x ≠ x) :
    (t - stepTo w m t x).natAbs < (t - x).natAbs := by
  have hm : 0 < m := by omega
  set d := t - x with hd
  set k := Int.fdiv (w * d) m with hk
  have hkediv : k = (w * d) / m := by rw [hk, Int.fdiv_eq_ediv _ (le_of_lt hm)]
  have hknz : k ≠ 0 := by
    intro h0
    apply hne
    show x + k = x
    omega
  have hstep : t - stepTo w m t x = d - k := by
    show t - (x + k) = d - k
    omega
  rw [hstep]
  rcases lt_trichotomy d 0 with hdlt | hdeq | hdgt
  · have hk0 : k ≤ 0 := by
      rw [hkediv]
      have h1 : w * d ≤ 0 := mul_nonpos_of_nonneg_of_nonpos (by omega) (by omega)
      have h2 := Int.ediv_le_ediv hm h1
      simpa using h2
    have hkd : d ≤ k := by
      rw [hkediv]
      have h1 : m * d ≤ w * d := by
        have := mul_le_mul_of_nonpos_right hwm (show d ≤ 0 by omega)
        omega
      have h2 := Int.ediv_le_ediv hm h1
      have h3 : m * d / m = d := Int.mul_ediv_cancel_left d (ne_of_gt hm)
      omega
    omega
  · exfalso
    apply hknz
    rw [hkediv, hdeq]
    simp
  · have hk0 : 0 ≤ k := by
      rw [hk]
      exact Int.fdiv_nonneg (by positivity) (by omega)
    have hkd : k ≤ d := by
      rw [hkediv]
      have h1 : w * d ≤ m * d := by
        have := mul_le_mul_of_nonneg_right hwm (show (0:Int) ≤ d by omega)
        omega
      have h2 := Int.ediv_le_ediv hm h1
      have h3 : m * d / m = d := Int.mul_ediv_cancel_left d (ne_of_gt hm)
      omega
    omega

lemma stepTo_reaches_fixed (w m : Int) (hw : 1 ≤ w) (hwm : w ≤ m) (t : Int) :
    ∀ (n : Nat) (x : Int), (t - x).natAbs = n →
      ∃ N y, (stepTo w m t)^[N] x = y ∧ stepTo w m t y = y := by
  intro n
  induction n using Nat.strong_induction_on with
  | _ n ih =>
    intro x hn
    by_cases hfix : stepTo w m t x = x
    · exact ⟨0, x, rfl, hfix⟩
    · have hdec := stepTo_dec w m t x hw hwm hfix
      rw [hn] at hdec
      obtain ⟨N, y, hiter, hfy⟩ := ih _ hdec (stepTo w m t x) rfl
      exact ⟨N + 1, y, by rw [Function.iterate_succ_apply]; exact hiter, hfy⟩

lemma stepTo_fixed_char (w m t y : Int) (hw : 1 ≤ w) (hwm : w ≤ m)
    (hfy : stepTo w m t y = y) : 0 ≤ t - y ∧ w * (t - y) < m := by
  have hm : 0 < m := by omega
  have h0 : Int.fdiv (w * (t - y)) m = 0 := by
    have h1 : y + Int.fdiv (w * (t - y)) m = y := hfy
    omega
  rw [fdiv_eq_zero_iff _ _ hm] at h0
  refine ⟨?_, h0.2⟩
  nlinarith [h0.1]

lemma iterate_stable (g : Int → Int) (y : Int) (h : g y = y) :
    ∀ k, g^[k] y = y := by
  intro k
  induction k with
  | zero => rfl
  | succ k ih => rw [Function.iterate_succ_apply', ih, h]

lemma runClock_coeffs (f : ExternalFilter) (c : Int) (n : Nat) :
    (runClock f c n).w0lp_1_s7 = f.w0lp_1_s7 ∧
      (runClock f c n).w0hp_1_s17 = f.w0hp_1_s17 := by
  induction n with
  | zero => exact ⟨rfl, rfl⟩
  | succ n ih => exact ih

lemma runClock_vlp (f : ExternalFilter) (c : Int) (n : Nat) :
    (runClock f c n).vlp = (stepTo f.w0lp_1_s7 128 (c * 2048))^[n] f.vlp := by
  induction n with
  | zero => rfl
  | succ n ih =>
      rw [Function.iterate_succ_apply', ← ih]
      show (runClock f c n).vlp +
          Int.fdiv ((runClock f c n).w0lp_1_s7 * (c * 2048 - (runClock f c n).vlp)) 128 = _
      rw [(runClock_coeffs f c n).1]
      rfl

lemma runClock_vhp_succ (f : ExternalFilter) (c : Int) (n : Nat) :
    (runClock f c (n + 1)).vhp = (runClock f c n).vhp +
      Int.fdiv (f.w0hp_1_s17 * ((runClock f c n).vlp - (runClock f c n).vhp)) 131072 := by
  show (runClock f c n).vhp +
      Int.fdiv ((runClock f c n).w0hp_1_s17 * ((runClock f c n).vlp - (runClock f c n).vhp)) 131072 = _
  rw [(runClock_coeffs f c n).2]

lemma clock_out (g : ExternalFilter) (c : Int) :
    (g.clock c).2 = clampI16 (Int.fdiv
      ((g.vlp + Int.fdiv (g.w0lp_1_s7 * (c * 2048 - g.vlp)) 128) -
        (g.vhp + Int.fdiv (g.w0hp_1_s17 * (g.vlp - g.vhp)) 131072)) 2048) := rfl

lemma clampI16_bounds (x : Int) : -32768 ≤ clampI16 x ∧ clampI16 x ≤ 32767 := by
  refine ⟨le_min (le_max_right _ _) (by norm_num), min_le_right _ _⟩

lemma clampI16_eq_self (x : Int) (h1 : -32768 ≤ x) (h2 : x ≤ 32767) :
    clampI16 x = x := by
  unfold clampI16
  rw [max_eq_left h1, min_eq_left h2]

/-- C9 amended: the clamp does bound every output to the `i16` range, for
any state and any input; but under a constant input the output is only
eventually constant at a DC residual `V` with `0 ≤ V ≤ 63` — not
necessarily zero.  The coefficient hypotheses cover both chip models set
by `set_clock_frequency` (low-pass weight 12 or 11, high-pass weight 1). -/
theorem externalFilter_bibo_amended (f : ExternalFilter) (c : Int)
    (hlp1 : 1 ≤ f.w0lp_1_s7) (hlp2 : f.w0lp_1_s7 ≤ 128)
    (hhp : f.w0hp_1_s17 = 1) :
    (∀ (g : ExternalFilter) (inp : Int),
        -32768 ≤ (g.clock inp).2 ∧ (g.clock inp).2 ≤ 32767) ∧
    (∃ N V, 0 ≤ V ∧ V ≤ 63 ∧ ∀ n, N ≤ n → filterOut f c n = V) := by
  constructor
  · intro g inp
    rw [clock_out]
    exact clampI16_bounds _
  · obtain ⟨N1, X, hiterX, hfixX⟩ :=
      stepTo_reaches_fixed f.w0lp_1_s7 128 hlp1 hlp2 (c * 2048)
        (c * 2048 - f.vlp).natAbs f.vlp rfl
    have hvlp : ∀ n, N1 ≤ n → (runClock f c n).vlp = X := by
      intro n hn
      rw [runClock_vlp]
      have hsplit : n = (n - N1) + N1 := by omega
      rw [hsplit, Function.iterate_add_apply, hiterX]
      exact iterate_stable _ X hfixX _
    have hvhpiter : ∀ k, (runClock f c (N1 + k)).vhp =
        (stepTo 1 131072 X)^[k] ((runClock f c N1).vhp) := by
      intro k
      induction k with
      | zero => rfl
      | succ k ih =>
          have hs : N1 + (k + 1) = (N1 + k) + 1 := by omega
          rw [hs, runClock_vhp_succ, ih, hhp, hvlp (N1 + k) (by omega),
            Function.iterate_succ_apply']
          rfl
    obtain ⟨N2, H, hiterH, hfixH⟩ :=
      stepTo_reaches_fixed 1 131072 (by norm_num) (by norm_num) X
        (X - (runClock f c N1).vhp).natAbs ((runClock f c N1).vhp) rfl
    have hvhp : ∀ n, N1 + N2 ≤ n → (runClock f c n).vhp = H := by
      intro n hn
      have hsplit : n = N1 + ((n - N1 - N2) + N2) := by omega
      rw [hsplit, hvhpiter, Function.iterate_add_apply, hiterH]
      exact iterate_stable _ H hfixH _
    have hresid := stepTo_fixed_char 1 131072 X H (by norm_num) (by norm_num) hfixH
    rw [one_mul] at hresid
    have hdlp0 : Int.fdiv (f.w0lp_1_s7 * (c * 2048 - X)) 128 = 0 := by
      have h1 : X + Int.fdiv (f.w0lp_1_s7 * (c * 2048 - X)) 128 = X := hfixX
      omega
    have hdhp0 : Int.fdiv (X - H) 131072 = 0 := by
      have h1 : H + Int.fdiv (1 * (X - H)) 131072 = H := hfixH
      rw [one_mul] at h1
      omega
    refine ⟨N1 + N2, Int.fdiv (X - H) 2048, ?_, ?_, ?_⟩
    · exact Int.fdiv_nonneg hresid.1 (by norm_num)
    · rw [Int.fdiv_eq_ediv _ (by norm_num)]
      have h1 : X - H ≤ 131071 := by omega
      have h2 := Int.ediv_le_ediv (show (0:Int) < 2048 by norm_num) h1
      have h3 : (131071 : Int) / 2048 = 63 := by norm_num
      omega
    · intro n hn
      rw [filterOut, clock_out, hvlp n (by omega), hvhp n (by omega),
        (runClock_coeffs f c n).1, (runClock_coeffs f c n).2, hhp,
        one_mul, hdlp0, hdhp0, add_zero, add_zero]
      apply clampI16_eq_self
      · have h0 := Int.fdiv_nonneg hresid.1 (show (0:Int) ≤ 2048 by norm_num)
        omega
      · rw [Int.fdiv_eq_ediv _ (by norm_num)]
        have h1 : X - H ≤ 131071 := by omega
        have h2 := Int.ediv_le_ediv (show (0:Int) < 2048 by norm_num) h1
        have h3 : (131071 : Int) / 2048 = 63 := by norm_num
        omega

/-- Witness for C9 amended: the PAL filter with constant input 2 satisfies
the coefficient hypotheses. -/
theorem externalFilter_bibo_amended_witness :
    (1 ≤ palFilter.w0lp_1_s7 ∧ palFilter.w0lp_1_s7 ≤ 128 ∧
        palFilter.w0hp_1_s17 = 1) ∧
    ((∀ (g : ExternalFilter) (inp : Int),
        -32768 ≤ (g.clock inp).2 ∧ (g.clock inp).2 ≤ 32767) ∧
      (∃ N V, 0 ≤ V ∧ V ≤ 63 ∧ ∀ n, N ≤ n → filterOut palFilter 2 n = V)) :=
  ⟨by decide,
    externalFilter_bibo_amended palFilter 2 (by decide) (by decide) (by decide)⟩

end Phosphor
